import Mathlib

/-!
Verification of the competitor price-comparison pipeline
(discovery → extraction → ranking → matching → differential-pricing analysis).

The Python services are shallowly embedded as executable Lean definitions:

* text is `List Char` (Python `str`, per-character ASCII semantics for
  `lower`/`upper`/`strip`);
* Python `float` arithmetic is idealised as exact rationals `ℚ`, computed
  through `mkRat`-based operations so that every definition evaluates inside
  the kernel; `round(x, n)` is round-half-to-even, as in Python;
* network fetches, HTML/JSON parsing done by third-party libraries
  (httpx, BeautifulSoup, json.loads, hashlib) and the LLM collaborator are
  oracle parameters: the repository logic that consumes their results is
  modelled exactly;
* Python regular-expression searches are executed by a small backtracking
  engine (`rxRun`) with the leftmost/greedy semantics of `re.search`,
  and the patterns are transcribed as data.

Each service is translated from the repository sources
(`app/services/differential_pricing.py`, `product_matcher.py`,
`relevance_ranker.py`, `product_extractor.py`, `query_discovery.py`,
`app/adapters/llm_client.py`, `app/models.py`).
-/

/-! ### Text primitives (Python `str` as `List Char`) -/

abbrev Str := List Char

def str (s : String) : Str := s.data

def lowerStr (s : Str) : Str := s.map Char.toLower

def upperStr (s : Str) : Str := s.map Char.toUpper

/-- Python `needle in hay` on strings (substring test). -/
def containsSub (needle hay : Str) : Bool := decide (needle <:+: hay)

/-- Python `str.strip()` (whitespace from both ends). -/
def stripStr (s : Str) : Str :=
  ((s.dropWhile Char.isWhitespace).reverse.dropWhile Char.isWhitespace).reverse

/-- Python `str.find(sub)`: index of the leftmost occurrence, or `none`. -/
def findSub (needle hay : Str) : Option Nat :=
  (List.range (hay.length + 1)).find? (fun i => needle.isPrefixOf (hay.drop i)) |>.map id

/-- Python slice `s[a:b]` for `0 ≤ a ≤ b` (indices already clamped). -/
def sliceStr (s : Str) (a b : Nat) : Str := (s.drop a).take (b - a)

def isDigitChar (c : Char) : Bool := c.isDigit

def isAlphaChar (c : Char) : Bool := c.isAlpha

def isAlnumChar (c : Char) : Bool := c.isAlpha || c.isDigit

/-- Python regex word character `\w` (ASCII). -/
def isWordChar (c : Char) : Bool := isAlnumChar c || c = '_'

/-- Python `str.title()`: a cased character is uppercased when the previous
character is not cased, lowercased otherwise (ASCII letters). -/
def titleStr (s : Str) : Str :=
  (s.foldl
    (fun acc c =>
      let out := acc.1
      let prevAlpha := acc.2
      if isAlphaChar c then
        (out ++ [if prevAlpha then c.toLower else c.toUpper], true)
      else (out ++ [c], false))
    (([] : Str), false)).1

/-- Python `str.capitalize()`. -/
def capitalizeStr (s : Str) : Str :=
  match s with
  | [] => []
  | c :: rest => c.toUpper :: rest.map Char.toLower

/-- Python `value.replace(old, new)` for a single-character `old` and
empty/single-character `new`, which is the only use the sources make. -/
def replaceChar (s : Str) (old : Char) (new : Option Char) : Str :=
  s.flatMap (fun c => if c = old then (match new with | none => [] | some d => [d]) else [c])

/-- Splits on every occurrence of characters satisfying `p` (Python
`re.split` with a single-character class: empty pieces are kept). -/
def splitOnPred (p : Char → Bool) (s : Str) : List Str :=
  (s.foldr
    (fun c acc =>
      if p c then [] :: acc
      else match acc with
        | [] => [[c]]
        | piece :: rest => (c :: piece) :: rest)
    ([[]] : List Str))

/-- Maximal runs of characters satisfying `p` (used for Python
`re.sub`/token scans over a single-character class). -/
def runsOfPred (p : Char → Bool) (s : Str) : List Str :=
  (splitOnPred (fun c => !p c) s).filter (fun piece => !piece.isEmpty)

/-- Python `" ".join(pieces)` (also used to model `re.sub(cls, " ", s).strip()`,
which keeps exactly the maximal runs joined by single spaces). -/
def joinWith (sep : Str) : List Str → Str
  | [] => []
  | [piece] => piece
  | piece :: rest => piece ++ sep ++ joinWith sep rest

/-! ### Python float arithmetic as exact rationals -/

def qmul (a b : ℚ) : ℚ := mkRat (a.num * b.num) (a.den * b.den)

def qadd (a b : ℚ) : ℚ := mkRat (a.num * (b.den : ℤ) + b.num * (a.den : ℤ)) (a.den * b.den)

def qsub (a b : ℚ) : ℚ := mkRat (a.num * (b.den : ℤ) - b.num * (a.den : ℤ)) (a.den * b.den)

def qdiv (a b : ℚ) : ℚ := mkRat (a.num * (b.den : ℤ) * Int.sign b.num) (a.den * b.num.natAbs)

/-- Python `max(a, b)` (first argument wins ties). -/
def pymax (a b : ℚ) : ℚ := if b ≤ a then a else b

/-- Python `min(a, b)` (first argument wins ties). -/
def pymin (a b : ℚ) : ℚ := if a ≤ b then a else b

/-- Python `max(values, default=d)`: the default is returned only for an
empty list; on a non-empty list it is the plain maximum (ties keep the
earlier element). -/
def pymaxList (d : ℚ) : List ℚ → ℚ
  | [] => d
  | x :: rest => rest.foldl pymax x

/-- Python `min(values)`, with `d` returned only for the empty list (on
which the Python builtin would raise; no caller reaches it). -/
def pyminList (d : ℚ) : List ℚ → ℚ
  | [] => d
  | x :: rest => rest.foldl pymin x

def floorQ (q : ℚ) : ℤ := Int.fdiv q.num (q.den : ℤ)

/-- Round to the nearest integer, ties to even — the behaviour of Python
`round` (on the exact value; binary-float representation error is abstracted
away by the rational idealisation). -/
def roundHalfEven (x : ℚ) : ℤ :=
  let n := floorQ x
  let f := qsub x (mkRat n 1)
  if f < mkRat 1 2 then n
  else if mkRat 1 2 < f then n + 1
  else if n % 2 = 0 then n else n + 1

/-- Python `round(x, 2)`. -/
def round2 (x : ℚ) : ℚ := mkRat (roundHalfEven (qmul x (mkRat 100 1))) 100

/-- Python `round(x, 4)`. -/
def round4 (x : ℚ) : ℚ := mkRat (roundHalfEven (qmul x (mkRat 10000 1))) 10000

/-- Python `max(lo, min(hi, x))` written as the sources write it. -/
def clampQ (lo hi x : ℚ) : ℚ := pymax lo (pymin hi x)

/-- Digits of a natural number (for Python string formatting of numbers). -/
def natDigits (fuel n : Nat) : Str :=
  match fuel with
  | 0 => []
  | fuel + 1 =>
    if n < 10 then [Char.ofNat (48 + n)]
    else natDigits fuel (n / 10) ++ [Char.ofNat (48 + n % 10)]

def natToStr (n : Nat) : Str := natDigits (n + 1) n

/-- Python `f"{x:.2f}"` on the idealised value (round half-even to two
decimals, then print with exactly two decimals). -/
def formatQ2 (x : ℚ) : Str :=
  let n := roundHalfEven (qmul x (mkRat 100 1))
  let sign : Str := if n < 0 then ['-'] else []
  let a := n.natAbs
  sign ++ natToStr (a / 100) ++ ['.'] ++
    [Char.ofNat (48 + a / 10 % 10), Char.ofNat (48 + a % 10)]

/-- Python `float(s)` for strings matched by the numeric patterns
`[0-9]+(\.[0-9]{1,2})?` of the sources. -/
def parseFloat (s : Str) : ℚ :=
  let intPart := s.takeWhile isDigitChar
  let rest := s.dropWhile isDigitChar
  let fracPart := match rest with
    | '.' :: frac => frac.takeWhile isDigitChar
    | _ => []
  let intVal : Nat := intPart.foldl (fun acc c => acc * 10 + (c.toNat - 48)) 0
  let fracVal : Nat := fracPart.foldl (fun acc c => acc * 10 + (c.toNat - 48)) 0
  qadd (mkRat intVal 1) (mkRat fracVal (10 ^ fracPart.length))

/-! ### Stable sorting (Python `list.sort` / `sorted` are stable) -/

/-- Insert `a` after every element strictly smaller under `lt`
(so equal keys keep their original relative order). -/
def insertBy (lt : α → α → Bool) (a : α) : List α → List α
  | [] => [a]
  | b :: bs => if lt b a then b :: insertBy lt a bs else a :: b :: bs

/-- Stable sort by a strict comparator; models Python `sorted(key=...)`
(and `reverse=True` via the flipped comparator). -/
def sortBy (lt : α → α → Bool) : List α → List α
  | [] => []
  | a :: rest => insertBy lt a (sortBy lt rest)

theorem perm_insertBy (lt : α → α → Bool) (a : α) :
    ∀ l : List α, List.Perm (insertBy lt a l) (a :: l) := by
  intro l
  induction l with
  | nil => simp [insertBy]
  | cons b bs ih =>
    by_cases h : lt b a = true
    · simpa [insertBy, h] using ((ih.cons b).trans (List.Perm.swap a b bs))
    · simp [insertBy, h]

theorem perm_sortBy (lt : α → α → Bool) :
    ∀ l : List α, List.Perm (sortBy lt l) l := by
  intro l
  induction l with
  | nil => simp [sortBy]
  | cons a rest ih =>
    exact (perm_insertBy lt a (sortBy lt rest)).trans (ih.cons a)

theorem mem_sortBy (lt : α → α → Bool) (l : List α) (x : α) :
    x ∈ sortBy lt l ↔ x ∈ l :=
  (perm_sortBy lt l).mem_iff

theorem length_sortBy (lt : α → α → Bool) (l : List α) :
    (sortBy lt l).length = l.length :=
  (perm_sortBy lt l).length_eq

theorem pairwise_insertBy (lt : α → α → Bool)
    (hasymm : ∀ a b, lt a b = true → lt b a = false)
    (htrans : ∀ a b c, lt b a = false → lt c b = false → lt c a = false)
    (a : α) :
    ∀ l : List α, List.Pairwise (fun x y => lt y x = false) l →
      List.Pairwise (fun x y => lt y x = false) (insertBy lt a l) := by
  intro l
  induction l with
  | nil => intro _; simp [insertBy]
  | cons b bs ih =>
    intro hp
    rcases List.pairwise_cons.mp hp with ⟨hb, hbs⟩
    by_cases h : lt b a = true
    · rw [insertBy, if_pos h]
      refine List.pairwise_cons.mpr ⟨?_, ih hbs⟩
      intro y hy
      rcases List.mem_cons.mp ((perm_insertBy lt a bs).mem_iff.mp hy) with hya | hyb
      · rw [hya]; exact hasymm b a h
      · exact hb y hyb
    · rw [insertBy, if_neg h]
      refine List.pairwise_cons.mpr ⟨?_, hp⟩
      intro y hy
      rcases List.mem_cons.mp hy with hyb | hyy
      · subst hyb; exact Bool.eq_false_iff.mpr h
      · exact htrans a b y (Bool.eq_false_iff.mpr h) (hb y hyy)

theorem pairwise_sortBy (lt : α → α → Bool)
    (hasymm : ∀ a b, lt a b = true → lt b a = false)
    (htrans : ∀ a b c, lt b a = false → lt c b = false → lt c a = false) :
    ∀ l : List α, List.Pairwise (fun x y => lt y x = false) (sortBy lt l) := by
  intro l
  induction l with
  | nil => simp [sortBy]
  | cons a rest ih => exact pairwise_insertBy lt hasymm htrans a _ ih

/-- Python string comparison (lexicographic by code point). -/
def strLt : Str → Str → Bool
  | [], [] => false
  | [], _ :: _ => true
  | _ :: _, [] => false
  | a :: as, b :: bs =>
    if a.toNat < b.toNat then true
    else if b.toNat < a.toNat then false
    else strLt as bs

/-! ### A small backtracking regex engine (Python `re` semantics:
leftmost match, greedy quantifiers, left-first alternation, ASCII `\b`). -/

inductive Rx where
  | eps
  | cls (p : Char → Bool)
  | seq (a b : Rx)
  | alt (a b : Rx)
  | rep (lo : Nat) (hi : Option Nat) (r : Rx)
  | wb
  | grp (r : Rx)

def wordAt (s : Array Char) (i : Nat) : Bool :=
  if h : i < s.size then isWordChar s[i] else false

def boundaryAt (s : Array Char) (i : Nat) : Bool :=
  (if i = 0 then false else wordAt s (i - 1)) != wordAt s i

/-- All ways the pattern can match starting at `i`, as end positions (with
the span of capture group 1 if one was crossed), in backtracking preference
order: the head is the match Python would pick at this start position. -/
def rxRun (s : Array Char) : Nat → Rx → Nat → Option (Nat × Nat) →
    List (Nat × Option (Nat × Nat))
  | 0, _, _, _ => []
  | fuel + 1, rx, i, cap =>
    match rx with
    | .eps => [(i, cap)]
    | .cls p => if h : i < s.size then (if p s[i] then [(i + 1, cap)] else []) else []
    | .wb => if boundaryAt s i then [(i, cap)] else []
    | .seq a b => (rxRun s fuel a i cap).flatMap (fun jc => rxRun s fuel b jc.1 jc.2)
    | .alt a b => rxRun s fuel a i cap ++ rxRun s fuel b i cap
    | .grp r => (rxRun s fuel r i cap).map (fun jc => (jc.1, some (i, jc.1)))
    | .rep lo hi r =>
      match lo, hi with
      | 0, some 0 => [(i, cap)]
      | 0, _ =>
        ((rxRun s fuel r i cap).flatMap (fun jc =>
          if i < jc.1 then rxRun s fuel (.rep 0 (hi.map (· - 1)) r) jc.1 jc.2 else []))
          ++ [(i, cap)]
      | lo + 1, _ =>
        (rxRun s fuel r i cap).flatMap (fun jc =>
          rxRun s fuel (.rep lo (hi.map (· - 1)) r) jc.1 jc.2)

def rxSize : Rx → Nat
  | .eps => 1
  | .cls _ => 1
  | .seq a b => rxSize a + rxSize b + 1
  | .alt a b => rxSize a + rxSize b + 1
  | .rep _ _ r => rxSize r + 2
  | .wb => 1
  | .grp r => rxSize r + 1

def rxFuel (rx : Rx) (s : Array Char) : Nat := (rxSize rx + 4) * (s.size + 4)

def rxMatchAt (s : Array Char) (rx : Rx) (i : Nat) : Option (Nat × Option (Nat × Nat)) :=
  (rxRun s (rxFuel rx s) rx i none).head?

def rxSearchAux (s : Array Char) (rx : Rx) : Nat → Nat → Option (Nat × Nat × Option (Nat × Nat))
  | 0, _ => none
  | fuel + 1, i =>
    if i > s.size then none
    else match rxMatchAt s rx i with
      | some (j, cap) => some (i, j, cap)
      | none => rxSearchAux s rx fuel (i + 1)

/-- Python `pattern.search(text)`: start, end, and group-1 span. -/
def rxSearch (rx : Rx) (text : Str) : Option (Nat × Nat × Option (Nat × Nat)) :=
  let s := text.toArray
  rxSearchAux s rx (s.size + 1) 0

/-- Python `match.group(0)` of `pattern.search(text)`. -/
def reSearchG0 (rx : Rx) (text : Str) : Option Str :=
  (rxSearch rx text).map (fun r => sliceStr text r.1 r.2.1)

/-- Python `match.group(1)` of `pattern.search(text)` (patterns whose group 1
is always part of any match). -/
def reSearchG1 (rx : Rx) (text : Str) : Option Str :=
  (rxSearch rx text).bind (fun r => r.2.2.map (fun c => sliceStr text c.1 c.2))

def reFindallAux (s : Array Char) (text : Str) (rx : Rx) : Nat → Nat → List Str
  | 0, _ => []
  | fuel + 1, i =>
    if i > s.size then []
    else match rxMatchAt s rx i with
      | some (j, _) =>
        sliceStr text i j :: reFindallAux s text rx fuel (if i < j then j else i + 1)
      | none => reFindallAux s text rx fuel (i + 1)

/-- Python `pattern.findall(text)` for group-free patterns. -/
def reFindall (rx : Rx) (text : Str) : List Str :=
  let s := text.toArray
  reFindallAux s text rx (s.size + 1) 0

def rxCat (rs : List Rx) : Rx := rs.foldr Rx.seq Rx.eps

def rxAlts : List Rx → Rx
  | [] => Rx.cls (fun _ => false)
  | [r] => r
  | r :: rest => Rx.alt r (rxAlts rest)

/-- A literal, case-insensitively (patterns compiled with `re.IGNORECASE`). -/
def litCI (w : String) : Rx := rxCat (w.data.map (fun d => Rx.cls (fun c => c.toLower = d.toLower)))

def litCh (c : Char) : Rx := Rx.cls (fun d => d = c)

def rxDigit : Rx := Rx.cls isDigitChar

def rxWsStar : Rx := Rx.rep 0 none (Rx.cls Char.isWhitespace)

/-- The number shape `[0-9]+(?:\.[0-9]{1,2})?` shared by the price and
promo patterns. -/
def rxNumber : Rx :=
  rxCat [Rx.rep 1 none rxDigit,
         Rx.rep 0 (some 1) (rxCat [litCh '.', Rx.rep 1 (some 2) rxDigit])]

/-! ### Data model (`app/models.py`) -/

/-- The `condition` literal of `PurchaseOption` / `DiscoveryCandidate`. -/
inductive Condition where
  | new
  | unknown
  | used
  | refurbished
  | open_box
deriving DecidableEq, Repr

def Condition.toStr : Condition → Str
  | .new => str "new"
  | .unknown => str "unknown"
  | .used => str "used"
  | .refurbished => str "refurbished"
  | .open_box => str "open_box"

/-- The `match_method` literal of `ComparisonCluster`. -/
inductive MatchMethod where
  | exact_model
  | exact_sku
  | fuzzy_llm
deriving DecidableEq, Repr

/-- The `label` literal of `PricingFinding`. -/
inductive Label where
  | none
  | watch
  | high
  | critical
deriving DecidableEq, Repr

def Label.toStr : Label → Str
  | .none => str "none"
  | .watch => str "watch"
  | .high => str "high"
  | .critical => str "critical"

/-- The `source` literal of `DiscoveryCandidate`. -/
inductive CandidateSource where
  | tavily
  | site_search
deriving DecidableEq, Repr

structure PurchaseOption where
  offer_id : Str
  seller_name : Str
  source_domain : Str
  title : Str
  brand : Str := []
  model : Str := []
  variant : Str := []
  price : ℚ
  currency : Str := str "USD"
  condition : Condition := Condition.unknown
  promo_text : Str := []
  availability : Str := str "unknown"
  url : Str
  image : Str := []
  relevance_score : ℚ := 0
  match_confidence : ℚ := 0
  parse_notes : List Str := []
deriving DecidableEq, Repr

/-- The pydantic field constraints of `PurchaseOption` (`price` is `gt=0`,
the two scores are `ge=0, le=1`); constructing an offer that violates them
raises a `ValidationError` in Python. -/
def PurchaseOption.pydanticValid (o : PurchaseOption) : Bool :=
  decide (0 < o.price) && decide (0 ≤ o.relevance_score) && decide (o.relevance_score ≤ 1)
    && decide (0 ≤ o.match_confidence) && decide (o.match_confidence ≤ 1)

structure ComparisonCluster where
  cluster_id : Str
  brand : Str
  model : Str
  variant : Str := []
  match_method : MatchMethod
  confidence : ℚ
  offer_count : Nat
  domains : List Str := []
  offers : List PurchaseOption := []
deriving DecidableEq, Repr

/-- The pydantic field constraints of `ComparisonCluster`: `confidence` in
[0,1] and `offer_count ≥ 2`.  Note that the length of `offers` is NOT
constrained by the model. -/
def ComparisonCluster.pydanticValid (c : ComparisonCluster) : Bool :=
  decide (0 ≤ c.confidence) && decide (c.confidence ≤ 1) && decide (2 ≤ c.offer_count)

structure PricingFinding where
  label : Label
  alert_eligible : Bool := false
  spread_percent : ℚ
  lowest_offer_id : Str := []
  highest_offer_id : Str := []
  reasoning : Str
  confidence : ℚ
  claim_style_text : Str
  evidence_notes : Str
deriving DecidableEq, Repr

structure DiscoveryCandidate where
  domain : Str
  title : Str := []
  url : Str
  snippet : Str := []
  score : Option ℚ := Option.none
  source : CandidateSource := CandidateSource.tavily
  preview_price : Option ℚ := Option.none
  preview_currency : Str := str "USD"
  preview_availability : Str := []
  preview_condition : Condition := Condition.unknown
deriving DecidableEq, Repr

/-! ### LLM collaborator (`app/adapters/llm_client.py`).  The HTTP/JSON
round-trip `_call_json` is an oracle; the client logic around it (enabled
gate, sanitisation, clamping, emptiness checks) is modelled exactly. -/

structure LLMSameProductMatch where
  matched_indexes : List Int
  confidence : ℚ
  rationale : Str
deriving DecidableEq, Repr

structure LLMPricingNarrative where
  reasoning : Str
  claim_style_text : Str
  confidence_adjustment : ℚ
deriving DecidableEq, Repr

/-- A raw (post-`json.loads`, pre-validation) response for
`match_same_product`; `matched_indexes` abstracts the JSON integer array. -/
structure RawFuzzyResponse where
  matched_indexes : List Int
  confidence : ℚ
  rationale : Str

/-- A raw response for `explain_pricing_comparison`. -/
structure RawNarrativeResponse where
  reasoning : Str
  claim_style_text : Str
  confidence_adjustment : ℚ

/-- The `draft_finding` dict that `DifferentialPricingService.analyze`
passes to the LLM. -/
structure DraftFinding where
  label : Label
  alert_eligible : Bool
  spread_percent : ℚ
  promo_gap_percent : ℚ
  cluster_confidence : ℚ
  offer_count : Nat

structure LLMClient where
  provider : Str
  api_key : Str
  model : Str
  fuzzyOracle : Str → List PurchaseOption → Option RawFuzzyResponse
  narrativeOracle : Str → List PurchaseOption → DraftFinding → Option RawNarrativeResponse

def LLMClient.enabled (c : LLMClient) : Bool := !c.api_key.isEmpty && !c.model.isEmpty

def sanitize_indexes (items : List Int) (size : Nat) : List Int :=
  items.foldl
    (fun acc item =>
      if 0 ≤ item ∧ item < (size : Int) ∧ ¬ acc.contains item then acc ++ [item] else acc)
    []

def LLMClient.match_same_product (c : LLMClient) (query : Str)
    (offers : List PurchaseOption) : Option LLMSameProductMatch :=
  if !c.enabled || c.provider ≠ str "gemini" || offers.length < 2 then Option.none
  else match c.fuzzyOracle query offers with
    | Option.none => Option.none
    | Option.some raw =>
      let indexes := sanitize_indexes raw.matched_indexes offers.length
      if indexes.length < 2 then Option.none
      else Option.some
        { matched_indexes := indexes
          confidence := clampQ 0 1 raw.confidence
          rationale := stripStr raw.rationale }

def LLMClient.explain_pricing_comparison (c : LLMClient) (query : Str)
    (offers : List PurchaseOption) (draft : DraftFinding) : Option LLMPricingNarrative :=
  if !c.enabled || c.provider ≠ str "gemini" || offers.length < 2 then Option.none
  else match c.narrativeOracle query offers draft with
    | Option.none => Option.none
    | Option.some raw =>
      let reasoning := stripStr raw.reasoning
      let claim_style_text := stripStr raw.claim_style_text
      if reasoning.isEmpty || claim_style_text.isEmpty then Option.none
      else Option.some
        { reasoning := reasoning
          claim_style_text := claim_style_text
          confidence_adjustment := clampQ (mkRat (-1) 10) (mkRat 1 10) raw.confidence_adjustment }

/-! ### Product matcher (`app/services/product_matcher.py`) -/

def COMMON_BRANDS : List Str :=
  [str "apple", str "sony", str "samsung", str "bose", str "google", str "microsoft",
   str "jbl", str "beats", str "lg", str "hp", str "dell", str "lenovo",
   str "asus", str "acer", str "canon", str "nikon", str "meta", str "anker",
   str "nintendo", str "logitech", str "marshall", str "razer"]

def GENERIC_MODEL_STOPWORDS : List Str :=
  [str "wireless", str "gaming", str "mouse", str "headphones", str "headset",
   str "earbuds", str "esports", str "black", str "white", str "silver", str "blue",
   str "red", str "green", str "pink", str "edition", str "series", str "generation",
   str "gen", str "with", str "for"]

/-- `re.compile(r"\b(32gb|64gb|128gb|256gb|512gb|1tb|2tb)\b", re.IGNORECASE)`. -/
def CAPACITY_PATTERN : Rx :=
  rxCat [Rx.wb,
         Rx.grp (rxAlts [litCI "32gb", litCI "64gb", litCI "128gb", litCI "256gb",
                         litCI "512gb", litCI "1tb", litCI "2tb"]),
         Rx.wb]

/-- Pattern 1 of `MODEL_PATTERNS`: word boundary, 1-5 letters, a hyphen or
slash, then 2+ of letters/digits/hyphen, word boundary (`re.IGNORECASE`). -/
def MODEL_PATTERN_1 : Rx :=
  rxCat [Rx.wb, Rx.rep 1 (some 5) (Rx.cls isAlphaChar),
         Rx.cls (fun c => c = '-' || c = '/'),
         Rx.rep 2 Option.none (Rx.cls (fun c => isAlnumChar c || c = '-')), Rx.wb]

/-- Pattern 2 of `MODEL_PATTERNS`: 2+ alphanumerics, then one or more groups
of (hyphen-or-slash plus 2+ alphanumerics), between word boundaries
(`re.IGNORECASE`). -/
def MODEL_PATTERN_2 : Rx :=
  rxCat [Rx.wb, Rx.rep 2 Option.none (Rx.cls isAlnumChar),
         Rx.rep 1 Option.none
           (rxCat [Rx.cls (fun c => c = '-' || c = '/'),
                   Rx.rep 2 Option.none (Rx.cls isAlnumChar)]),
         Rx.wb]

/-- `\b[A-Z]{1,4}[0-9][A-Z0-9-]{2,}\b` with `re.IGNORECASE`. -/
def MODEL_PATTERN_3 : Rx :=
  rxCat [Rx.wb, Rx.rep 1 (some 4) (Rx.cls isAlphaChar), rxDigit,
         Rx.rep 2 Option.none (Rx.cls (fun c => isAlnumChar c || c = '-')), Rx.wb]

/-- `re.findall(r"\b[A-Za-z0-9]+\b", text)` word pattern. -/
def TOKEN_WORD_PATTERN : Rx :=
  rxCat [Rx.wb, Rx.rep 1 Option.none (Rx.cls isAlnumChar), Rx.wb]

/-- `re.findall(r"\b[a-zA-Z0-9-]{4,}\b", text)` fallback-token pattern. -/
def MODEL_TOKEN_PATTERN : Rx :=
  rxCat [Rx.wb, Rx.rep 4 Option.none (Rx.cls (fun c => isAlnumChar c || c = '-')), Rx.wb]

/-- `re.sub(r"[^a-z0-9]+", " ", value.lower()).strip()`. -/
def normalize_text (value : Str) : Str :=
  joinWith (str " ") (runsOfPred isAlnumChar (lowerStr value))

/-- Python `str.split()` (split on whitespace runs, drop empties). -/
def splitWs (s : Str) : List Str := runsOfPred (fun c => !Char.isWhitespace c) s

def infer_brand (title : Str) : Str :=
  let tokens := splitWs (normalize_text title)
  match (tokens.take 3).find? (fun token => COMMON_BRANDS.contains token) with
  | some token => titleStr token
  | Option.none =>
    match tokens with
    | [] => []
    | token :: _ => titleStr token

def windowsOf (window : Nat) (tokens : List Str) : List (List Str) :=
  (List.range (tokens.length + 1 - window)).map (fun index => (tokens.drop index).take window)

def isUpperAZ (c : Char) : Bool := c.isUpper

def hasDigit (s : Str) : Bool := s.any isDigitChar

def extract_compound_model_identifier (text : Str) : Str :=
  let tokens := reFindall TOKEN_WORD_PATTERN text
  let step : (Str × Int) → List Str → (Str × Int) := fun best parts =>
    if parts.any (fun part =>
        COMMON_BRANDS.contains (lowerStr part) || GENERIC_MODEL_STOPWORDS.contains (lowerStr part)) then
      best
    else if !hasDigit (parts.headD []) && (parts.headD []).length > 4 then best
    else
      let combined := upperStr parts.flatten
      if combined.length < 4 || combined.length > 18 then best
      else if !combined.any isUpperAZ || !hasDigit combined then best
      else
        let digit_parts : Int := (parts.filter hasDigit).length
        let short_parts : Int := (parts.filter (fun part => part.length ≤ 4)).length
        let score : Int := digit_parts * 3 + short_parts * 2 - (max (combined.length - 10 : Int) 0)
        if score > best.2 then (combined, score) else best
  ((windowsOf 3 tokens ++ windowsOf 2 tokens).foldl step ([], -1)).1

def extract_model_identifier (text : Str) : Str :=
  match reSearchG0 MODEL_PATTERN_1 text with
  | some m => upperStr m
  | Option.none =>
  match reSearchG0 MODEL_PATTERN_2 text with
  | some m => upperStr m
  | Option.none =>
  match reSearchG0 MODEL_PATTERN_3 text with
  | some m => upperStr m
  | Option.none =>
    let combined := extract_compound_model_identifier text
    if !combined.isEmpty then combined
    else
      let tokens := (reFindall MODEL_TOKEN_PATTERN text).filter
        (fun token => token.any isAlphaChar && token.any isDigitChar)
      match tokens with
      | [] => []
      | token :: _ => upperStr token

def extract_variant_token (text : Str) : Str :=
  match reSearchG1 CAPACITY_PATTERN text with
  | some m => lowerStr m
  | Option.none => []

def classify_exact_match_method (model : Str) : MatchMethod :=
  let normalized := upperStr model
  let letters := normalized.filter isUpperAZ
  let digits := normalized.filter isDigitChar
  if !digits.isEmpty && letters.isEmpty then MatchMethod.exact_sku
  else if (6 ≤ normalized.length
            && normalized.all (fun c => isUpperAZ c || isDigitChar c || c = '-'))
          && letters.length * 2 ≤ digits.length && letters.length ≤ 2 then
    MatchMethod.exact_sku
  else MatchMethod.exact_model

def seller_or_domain (offer : PurchaseOption) : Str :=
  normalize_text (if offer.seller_name.isEmpty then offer.source_domain else offer.seller_name)

/-- Python `len({...})` over a list of values. -/
def distinctCount (values : List Str) : Nat := values.dedup.length

def same_brand (offers : List PurchaseOption) : Bool :=
  ((offers.filterMap
      (fun offer => if offer.brand.isEmpty then Option.none else some (normalize_text offer.brand))).dedup).length ≤ 1

def variant_conflict (offers : List PurchaseOption) : Bool :=
  ((offers.filterMap
      (fun offer => if offer.variant.isEmpty then Option.none else some offer.variant)).dedup).length > 1

/-- Ordered occurrence counts (Python dict insertion order). -/
def countsOrdered (values : List Str) : List (Str × Nat) :=
  values.foldl
    (fun acc value =>
      if value.isEmpty then acc
      else if acc.any (fun kv => kv.1 = value) then
        acc.map (fun kv => if kv.1 = value then (kv.1, kv.2 + 1) else kv)
      else acc ++ [(value, 1)])
    []

/-- Python `max(counts, key=counts.get)`: the first key attaining the
maximal count, in insertion order; empty string when no non-empty value. -/
def dominant_value (values : List Str) : Str :=
  match countsOrdered values with
  | [] => []
  | kv0 :: rest => (rest.foldl (fun best kv => if kv.2 > best.2 then kv else best) kv0).1

def enrich_offer (offer : PurchaseOption) : PurchaseOption :=
  let brand := if offer.brand.isEmpty then infer_brand offer.title else offer.brand
  let model := if offer.model.isEmpty then extract_model_identifier offer.title else offer.model
  let variant :=
    if offer.variant.isEmpty then extract_variant_token (offer.title ++ str " " ++ model)
    else offer.variant
  let notes := offer.parse_notes
    ++ (if offer.brand.isEmpty && !brand.isEmpty then [str "brand-inferred"] else [])
    ++ (if offer.model.isEmpty && !model.isEmpty then [str "model-inferred"] else [])
    ++ (if offer.variant.isEmpty && !variant.isEmpty then [str "variant-inferred"] else [])
  { offer with brand := brand, model := model, variant := variant, parse_notes := notes }

def upsertGroup (key : Str) (offer : PurchaseOption) :
    List (Str × List PurchaseOption) → List (Str × List PurchaseOption)
  | [] => [(key, [offer])]
  | (k, group) :: rest =>
    if k = key then (k, group ++ [offer]) :: rest else (k, group) :: upsertGroup key offer rest

/-- Sum of relevance scores, as Python `sum(...)` (left fold from 0). -/
def sumScores (group : List PurchaseOption) : ℚ :=
  group.foldl (fun acc offer => qadd acc offer.relevance_score) 0

/-- Strict comparator placing `g` before `h` exactly when `g` has the
strictly larger sort key `(len(group), distinct sellers, round(mean
relevance, 4))`: the stable descending sort of `reverse=True`. -/
def groupSortLt (g h : List PurchaseOption) : Bool :=
  let keyOf : List PurchaseOption → Nat × Nat × ℚ := fun group =>
    (group.length, distinctCount (group.map seller_or_domain),
     round4 (qdiv (sumScores group) (mkRat (max group.length 1 : Nat) 1)))
  let a := keyOf g
  let b := keyOf h
  if b.1 < a.1 then true
  else if a.1 < b.1 then false
  else if b.2.1 < a.2.1 then true
  else if a.2.1 < b.2.1 then false
  else decide (b.2.2 < a.2.2)

/-- The `(brand, model, variant)` grouping of `_exact_cluster` (an ordered
dict of lists, Python insertion order). -/
def exactGroups (offers : List PurchaseOption) : List (Str × List PurchaseOption) :=
  offers.foldl
    (fun acc offer =>
      if offer.brand.isEmpty || offer.model.isEmpty then acc
      else
        upsertGroup
          (normalize_text offer.brand ++ str "::" ++ normalize_text offer.model
            ++ str "::" ++ offer.variant)
          offer acc)
    []

/-- The viability filter of `_exact_cluster`: at least two members spanning
at least two distinct seller-or-domain values. -/
def viableGroups (offers : List PurchaseOption) : List (List PurchaseOption) :=
  ((exactGroups offers).map Prod.snd).filter
    (fun group => 2 ≤ group.length && 2 ≤ distinctCount (group.map seller_or_domain))

def exact_cluster (offers : List PurchaseOption) : Option ComparisonCluster :=
  match sortBy groupSortLt (viableGroups offers) with
  | [] => Option.none
  | selected :: _ =>
    let model := dominant_value (selected.map PurchaseOption.model)
    let brand := dominant_value (selected.map PurchaseOption.brand)
    let variant := dominant_value (selected.map PurchaseOption.variant)
    let match_method := classify_exact_match_method model
    let avg_relevance := qdiv (sumScores selected) (mkRat (max selected.length 1 : Nat) 1)
    let confidence0 : ℚ := if match_method = MatchMethod.exact_model then mkRat 96 100 else mkRat 93 100
    let confidence := round2 (pymax (mkRat 85 100) (pymin (mkRat 99 100)
      (qadd (qsub confidence0 (mkRat 5 100)) (qmul avg_relevance (mkRat 5 100)))))
    let updated := selected.map (fun offer => { offer with match_confidence := confidence })
    some
      { cluster_id := str "exact::" ++ normalize_text brand ++ str "::"
          ++ normalize_text model ++ str "::" ++ variant
        brand := brand
        model := model
        variant := variant
        match_method := match_method
        confidence := confidence
        offer_count := updated.length
        domains := sortBy strLt (updated.map PurchaseOption.source_domain).dedup
        offers := updated }

structure ProductMatcherService where
  llm : Option LLMClient

def match_offers (svc : ProductMatcherService) (query : Str)
    (offers : List PurchaseOption) :
    Option ComparisonCluster × List PurchaseOption × List Str :=
  if offers.length < 2 then
    (Option.none, offers,
     [str "At least two relevant purchase options are required for exact-match comparison."])
  else
    let enriched := offers.map enrich_offer
    match exact_cluster enriched with
    | some cluster => (some cluster, cluster.offers, [])
    | Option.none =>
      let warnings := [str "Exact model matching did not find a confident same-product cluster."]
      match svc.llm with
      | Option.none => (Option.none, enriched, warnings)
      | some llm =>
        if !llm.enabled then (Option.none, enriched, warnings)
        else
          match llm.match_same_product query (enriched.take 6) with
          | Option.none =>
            (Option.none, enriched,
             warnings ++ [str "Gemini fuzzy matching did not produce a confident same-product cluster."])
          | some fuzzy =>
            let matched := fuzzy.matched_indexes.filterMap
              (fun index =>
                if 0 ≤ index ∧ index < ((enriched.take 6).length : Int) then
                  enriched.get? index.toNat
                else Option.none)
            if matched.length < 2 then (Option.none, enriched, warnings)
            else if !same_brand matched || variant_conflict matched then
              (Option.none, enriched,
               warnings ++ [str "Gemini returned a cluster that failed deterministic brand or variant checks."])
            else if distinctCount (matched.map seller_or_domain) < 2 then
              (Option.none, enriched,
               warnings ++ [str "Gemini returned fewer than two distinct sellers or domains."])
            else
              let confidence := pymax (mkRat 8 10) (pymin (mkRat 95 100) fuzzy.confidence)
              let updated := matched.map (fun offer => { offer with match_confidence := confidence })
              let dominant_model := dominant_value (updated.map PurchaseOption.model)
              let cluster : ComparisonCluster :=
                { cluster_id := str "fuzzy::"
                    ++ normalize_text (dominant_value (updated.map PurchaseOption.brand))
                    ++ str "::"
                    ++ normalize_text (if dominant_model.isEmpty then query else dominant_model)
                  brand :=
                    (if (dominant_value (updated.map PurchaseOption.brand)).isEmpty then
                      infer_brand query
                    else dominant_value (updated.map PurchaseOption.brand))
                  model :=
                    (if dominant_model.isEmpty then
                      (if (extract_model_identifier query).isEmpty then upperStr query
                       else extract_model_identifier query)
                    else dominant_model)
                  variant := dominant_value (updated.map PurchaseOption.variant)
                  match_method := MatchMethod.fuzzy_llm
                  confidence := round2 confidence
                  offer_count := updated.length
                  domains := sortBy strLt (updated.map PurchaseOption.source_domain).dedup
                  offers := updated }
              (some cluster, updated,
               warnings ++
                 [if fuzzy.rationale.isEmpty then
                    str "Gemini selected the strongest same-product cluster from the top ranked offers."
                  else fuzzy.rationale])

/-! ### Relevance ranker (`app/services/relevance_ranker.py`) -/

def ACCESSORY_KEYWORDS : List Str :=
  [str "case", str "cover", str "cable", str "charger", str "dock", str "adapter",
   str "replacement", str "protector", str "skin", str "sleeve", str "stand",
   str "mount", str "battery", str "earpad", str "ear pad"]

/-- `USED_CONDITIONS = {"used", "refurbished", "open_box"}`. -/
def usedCondition (c : Condition) : Bool :=
  c == Condition.used || c == Condition.refurbished || c == Condition.open_box

def SEARCH_OR_REVIEW_TOKENS : List Str :=
  [str "/search", str "search?", str "?k=", str "?s=", str "category",
   str "forum", str "review"]

def looks_like_accessory (query : Str) (offer : PurchaseOption) : Bool :=
  let query_text := normalize_text query
  let title := normalize_text offer.title
  ACCESSORY_KEYWORDS.any (fun keyword =>
    containsSub keyword title && !containsSub keyword query_text)

def wrong_model_family (query_model offer_model : Str) : Bool :=
  if query_model.isEmpty || offer_model.isEmpty then false
  else
    let familySplit : Str → Str := fun m =>
      (splitOnPred (fun c => c = '-' || c = '/' || c = ' ') (upperStr m)).headD []
    let query_family := familySplit query_model
    let offer_family := familySplit offer_model
    !query_family.isEmpty && !offer_family.isEmpty && query_family ≠ offer_family

def rankerTokens (value : Str) : List Str :=
  (((splitWs value).map (fun chunk => (lowerStr chunk).filter isAlnumChar)).filter
    (fun token => !token.isEmpty && (3 ≤ token.length || hasDigit token))).dedup

def query_overlap (query : Str) (offer : PurchaseOption) : ℚ :=
  let query_tokens := rankerTokens query
  if query_tokens.isEmpty then 0
  else
    let haystack := rankerTokens (offer.title ++ str " " ++ offer.brand ++ str " "
      ++ offer.model ++ str " " ++ offer.variant ++ str " " ++ offer.source_domain)
    let hits := (query_tokens.filter (fun token => haystack.contains token)).length
    qdiv (mkRat hits 1) (mkRat (max query_tokens.length 1 : Nat) 1)

def domain_confidence (offer : PurchaseOption) : ℚ :=
  if offer.parse_notes.contains (str "jsonld") && offer.parse_notes.contains (str "product-page") then
    mkRat 10 100
  else if offer.parse_notes.contains (str "product-page") then mkRat 8 100
  else if offer.parse_notes.contains (str "jsonld") then mkRat 6 100
  else mkRat 2 100

def reject_reason (query : Str) (offer : PurchaseOption) : Option Str :=
  if usedCondition offer.condition then some offer.condition.toStr
  else if offer.price ≤ 0 then some (str "missing-price")
  else
    let corpus := lowerStr (offer.title ++ str " " ++ offer.url ++ str " " ++ offer.promo_text)
    if SEARCH_OR_REVIEW_TOKENS.any (fun token => containsSub token corpus) then
      some (str "search-or-review-page")
    else if looks_like_accessory query offer then some (str "accessory")
    else Option.none

def rankerScore (query : Str) (offer : PurchaseOption) : ℚ :=
  match reject_reason query offer with
  | some _ => 0
  | Option.none =>
    let query_brand := infer_brand query
    let query_model := extract_model_identifier query
    let query_variant := extract_variant_token query
    let s0 : ℚ := 0
    let s1 := if !query_model.isEmpty && !offer.model.isEmpty
                 && normalize_text query_model = normalize_text offer.model then
        qadd s0 (mkRat 45 100)
      else s0
    let s2 := if !query_brand.isEmpty && !offer.brand.isEmpty
                 && normalize_text query_brand = normalize_text offer.brand then
        qadd s1 (mkRat 20 100)
      else s1
    let s3 :=
      if !query_variant.isEmpty then
        (if !offer.variant.isEmpty && query_variant = offer.variant then qadd s2 (mkRat 15 100)
         else if !offer.variant.isEmpty && query_variant ≠ offer.variant then
           qsub s2 (mkRat 25 100)
         else s2)
      else if !offer.variant.isEmpty then qadd s2 (mkRat 5 100)
      else s2
    let s4 := qadd s3 (domain_confidence offer)
    let s5 := qadd s4 (qmul (query_overlap query offer) (mkRat 10 100))
    let s6 := if wrong_model_family query_model offer.model then qsub s5 (mkRat 35 100) else s5
    let s7 := if looks_like_accessory query offer then qsub s6 (mkRat 40 100) else s6
    pymax 0 (pymin 1 (round4 s7))

/-- One pass of the loop body of `RelevanceRanker.rank` on a single offer:
the annotated, re-scored copy appended to `ranked`. -/
def rankAnnotate (query : Str) (offer : PurchaseOption) : PurchaseOption :=
  match reject_reason query offer with
  | some rejection =>
    { offer with
        parse_notes := offer.parse_notes ++ [str "rejected:" ++ rejection]
        relevance_score := 0 }
  | Option.none =>
    let score := rankerScore query offer
    { offer with
        relevance_score := score
        parse_notes := offer.parse_notes
          ++ (if mkRat 8 10 ≤ score then [str "high-relevance"] else []) }

/-- The `(-score, price, domain)` ascending sort key of `rank`. -/
def rankSortLt (a b : PurchaseOption) : Bool :=
  if b.relevance_score < a.relevance_score then true
  else if a.relevance_score < b.relevance_score then false
  else if a.price < b.price then true
  else if b.price < a.price then false
  else strLt a.source_domain b.source_domain

def rank (query : Str) (offers : List PurchaseOption) : List PurchaseOption :=
  let ranked := offers.map (rankAnnotate query)
  let kept := ranked.filter (fun offer => mkRat 55 100 ≤ offer.relevance_score)
  sortBy rankSortLt kept

/-! ### Differential pricing analyzer (`app/services/differential_pricing.py`) -/

/-- `re.compile(r"(\d{1,2})\s*%\s*off", re.IGNORECASE)`. -/
def PROMO_PERCENT_PATTERN : Rx :=
  rxCat [Rx.grp (Rx.rep 1 (some 2) rxDigit), rxWsStar, litCh '%', rxWsStar, litCI "off"]

/-- `re.compile(r"save\s*\$\s*([0-9]+(?:\.[0-9]{1,2})?)", re.IGNORECASE)`. -/
def PROMO_DOLLAR_PATTERN : Rx :=
  rxCat [litCI "save", rxWsStar, litCh '$', rxWsStar, Rx.grp rxNumber]

def promo_percent (promo_text : Str) (price : ℚ) : ℚ :=
  match reSearchG1 PROMO_PERCENT_PATTERN promo_text with
  | some g => parseFloat g
  | Option.none =>
    match reSearchG1 PROMO_DOLLAR_PATTERN promo_text with
    | some g =>
      if 0 < price then round2 (qmul (qdiv (parseFloat g) price) (mkRat 100 1))
      else if !promo_text.isEmpty then mkRat 10 1 else 0
    | Option.none => if !promo_text.isEmpty then mkRat 10 1 else 0

def promo_gap_percent (offers : List PurchaseOption) : ℚ :=
  let promo_values := offers.map (fun offer => promo_percent offer.promo_text offer.price)
  if pymaxList 0 promo_values = 0 then 0
  else round2 (qsub (pymaxList 0 promo_values) (pyminList 0 promo_values))

/-- The `key=lambda offer: offer.price` ascending sort of `analyze`. -/
def priceSortLt (a b : PurchaseOption) : Bool := decide (a.price < b.price)

def sortedOffers (cluster : ComparisonCluster) : List PurchaseOption :=
  sortBy priceSortLt cluster.offers

/-- `spread_percent` of `analyze` (0.0 when the lowest price is not
positive, guarding the division). -/
def spreadPercent (lowest highest : PurchaseOption) : ℚ :=
  if 0 < lowest.price then
    round2 (qmul (qdiv (qsub highest.price lowest.price) lowest.price) (mkRat 100 1))
  else 0

/-- The alert gate of `analyze`. -/
def alertEligible (cluster : ComparisonCluster) (offers : List PurchaseOption)
    (spread_percent promo_gap : ℚ) : Bool :=
  decide (3 ≤ offers.length)
    && offers.all (fun offer => offer.condition == Condition.new || offer.condition == Condition.unknown)
    && decide (mkRat 85 100 ≤ cluster.confidence)
    && (decide (mkRat 8 1 ≤ spread_percent) || decide (mkRat 10 1 ≤ promo_gap))

/-- The label ladder of `analyze`. -/
def labelOf (alert_eligible : Bool) (effective_gap : ℚ) : Label :=
  if alert_eligible then
    (if mkRat 25 1 ≤ effective_gap then Label.critical
     else if mkRat 15 1 ≤ effective_gap then Label.high
     else if mkRat 8 1 ≤ effective_gap then Label.watch
     else Label.none)
  else Label.none

/-- The pre-narrative confidence of `analyze` (line 42 of the source). -/
def analyzeBaseConfidence (cluster : ComparisonCluster) (offerCount : Nat) : ℚ :=
  round2 (pymin (mkRat 99 100) (pymax (mkRat 25 100)
    (qsub cluster.confidence (if offerCount < 3 then mkRat 5 100 else 0))))

structure DifferentialPricingService where
  llm : Option LLMClient

/-- `DifferentialPricingService.analyze`.  Returns `none` exactly when the
member list is empty, where the Python code raises `IndexError` at
`offers[0]`. -/
def analyze (svc : DifferentialPricingService) (query : Str)
    (cluster : ComparisonCluster) : Option PricingFinding :=
  match sortedOffers cluster with
  | [] => Option.none
  | lowest :: rest =>
    let offers := lowest :: rest
    let highest := offers.getLast (List.cons_ne_nil lowest rest)
    let spread_percent := spreadPercent lowest highest
    let promo_gap := promo_gap_percent offers
    let effective_gap := pymax spread_percent promo_gap
    let alert_eligible := alertEligible cluster offers spread_percent promo_gap
    let label := labelOf alert_eligible effective_gap
    let confidence := analyzeBaseConfidence cluster offers.length
    let reasoning :=
      if offers.length < 3 then
        str "The exact-match cluster currently has " ++ natToStr offers.length
          ++ str " new-price offers. The visible spread is " ++ formatQ2 spread_percent
          ++ str "% between " ++ lowest.seller_name ++ str " and " ++ highest.seller_name
          ++ str ", but that is not enough evidence for a differential-pricing alert."
      else if alert_eligible then
        str "Public listed prices for the exact-match cluster vary by "
          ++ formatQ2 spread_percent ++ str "% between " ++ lowest.seller_name
          ++ str " and " ++ highest.seller_name ++ str ". Promotion asymmetry is "
          ++ formatQ2 promo_gap ++ str "% and the cluster confidence is "
          ++ formatQ2 cluster.confidence ++ str "."
      else
        str "The exact-match cluster has " ++ natToStr offers.length
          ++ str " offers and a visible spread of " ++ formatQ2 spread_percent
          ++ str "%, but the evidence does not clear the strict alert gate."
    let claim_style_text :=
      if offers.length < 3 then
        str "Insufficient evidence for a suspicious differential-pricing alert."
      else if alert_eligible then
        str "Public listed prices suggest a suspicious differential-pricing pattern, not unlawful discrimination."
      else
        str "No suspicious differential-pricing alert is warranted from the current public listed prices."
    let evidence_notes :=
      str "Compares public list prices only.; Only new or unknown-condition offers are included.; Taxes, shipping, and checkout-only adjustments are excluded.; This does not prove unlawful discrimination."
    let afterLLM :=
      match svc.llm with
      | Option.none => (reasoning, claim_style_text, confidence)
      | some llm =>
        if llm.enabled then
          match llm.explain_pricing_comparison query offers
            { label := label
              alert_eligible := alert_eligible
              spread_percent := spread_percent
              promo_gap_percent := promo_gap
              cluster_confidence := cluster.confidence
              offer_count := offers.length } with
          | some narrative =>
            (narrative.reasoning, narrative.claim_style_text,
             round2 (pymax (mkRat 25 100) (pymin (mkRat 99 100)
               (qadd confidence narrative.confidence_adjustment))))
          | Option.none => (reasoning, claim_style_text, confidence)
        else (reasoning, claim_style_text, confidence)
    some
      { label := label
        alert_eligible := alert_eligible
        spread_percent := spread_percent
        lowest_offer_id := lowest.offer_id
        highest_offer_id := highest.offer_id
        reasoning := afterLLM.1
        confidence := afterLLM.2.2
        claim_style_text := afterLLM.2.1
        evidence_notes := evidence_notes }

/-! ### URL parsing (`urllib.parse.urlparse`, the `scheme://netloc/path?query#fragment`
splitting used by the sources; only `netloc` and `path` are consumed). -/

def schemeChar (c : Char) : Bool := isAlnumChar c || c = '+' || c = '-' || c = '.'

/-- `(netloc, path)` of `urlparse(url)`. -/
def urlparts (url : Str) : Str × Str :=
  let beforeFragment := url.takeWhile (fun c => c ≠ '#')
  let afterScheme :=
    match beforeFragment.findIdx? (fun c => c = ':') with
    | some idx =>
      if 1 ≤ idx ∧ isAlphaChar (beforeFragment.headD ' ')
          ∧ (sliceStr beforeFragment 1 idx).all schemeChar then
        beforeFragment.drop (idx + 1)
      else beforeFragment
    | Option.none => beforeFragment
  let hasNetloc := (str "//").isPrefixOf afterScheme
  let netloc :=
    if hasNetloc then (afterScheme.drop 2).takeWhile (fun c => c ≠ '/' ∧ c ≠ '?') else []
  let afterNetloc :=
    if hasNetloc then (afterScheme.drop 2).dropWhile (fun c => c ≠ '/' ∧ c ≠ '?') else afterScheme
  (netloc, afterNetloc.takeWhile (fun c => c ≠ '?'))

def urlNetloc (url : Str) : Str := (urlparts url).1

def urlPath (url : Str) : Str := (urlparts url).2

/-- Python `s.replace(old, new)` (all occurrences, leftmost,
non-overlapping; `old` non-empty). -/
def replaceSubAux (old new : Str) : Nat → Str → Str
  | 0, s => s
  | fuel + 1, s =>
    if old.isPrefixOf s ∧ ¬ old.isEmpty then new ++ replaceSubAux old new fuel (s.drop old.length)
    else match s with
      | [] => []
      | c :: rest => c :: replaceSubAux old new fuel rest

def replaceSub (old new s : Str) : Str := replaceSubAux old new (s.length + 1) s

/-! ### Product extractor (`app/services/product_extractor.py`).
The HTTP fetch and the BeautifulSoup/json parse of the page are collapsed
into a `FetchedPage` oracle record (one per successfully fetched candidate);
everything the extractor itself computes from that record is modelled. -/

/-- A JSON value, as produced by `json.loads` of an `ld+json` script body.
A number carries its decimal rendering (Python float/int formatting is
abstracted); object fields are listed with unique keys. -/
inductive Json where
  | jnull
  | jbool (b : Bool)
  | jnum (rendering : Str)
  | jstr (s : Str)
  | jarr (items : List Json)
  | jobj (fields : List (Str × Json))

def jsonLookup (fields : List (Str × Json)) (key : Str) : Option Json :=
  (fields.find? (fun kv => kv.1 = key)).map Prod.snd

/-- Python truthiness of a JSON value. -/
def jsonTruthy : Json → Bool
  | .jnull => false
  | .jbool b => b
  | .jnum rendering => rendering ≠ str "0" && rendering ≠ str "0.0"
  | .jstr s => !s.isEmpty
  | .jarr items => !items.isEmpty
  | .jobj fields => !fields.isEmpty

/-- Python `str(value)` on a scalar JSON value (the `repr` of a residual
container, which the sources never feed to anything but `.strip()`, is
abstracted to a fixed placeholder). -/
def jsonToStr : Json → Str
  | .jnull => str "None"
  | .jbool b => if b then str "True" else str "False"
  | .jnum rendering => rendering
  | .jstr s => s
  | .jarr _ => str "[...]"
  | .jobj _ => str "{...}"

def iterJsonNodesFuel : Nat → Json → List Json
  | 0, _ => []
  | fuel + 1, json =>
    match json with
    | .jarr items => items.flatMap (iterJsonNodesFuel fuel)
    | .jobj fields =>
      Json.jobj fields ::
        ((match jsonLookup fields (str "@graph") with
          | some graph => iterJsonNodesFuel fuel graph
          | Option.none => [])
         ++ fields.flatMap (fun kv =>
              match kv.2 with
              | .jobj f => iterJsonNodesFuel fuel (.jobj f)
              | .jarr items => iterJsonNodesFuel fuel (.jarr items)
              | _ => []))
    | _ => []

mutual

def jsonSize : Json → Nat
  | .jnull => 1
  | .jbool _ => 1
  | .jnum _ => 1
  | .jstr _ => 1
  | .jarr items => 1 + jsonListSize items
  | .jobj fields => 1 + jsonFieldsSize fields

def jsonListSize : List Json → Nat
  | [] => 0
  | json :: rest => jsonSize json + jsonListSize rest

def jsonFieldsSize : List (Str × Json) → Nat
  | [] => 0
  | kv :: rest => jsonSize kv.2 + jsonFieldsSize rest

end

/-- `_iter_json_nodes` (the fuel, one unit per nesting level, is ample:
recursion always descends into a structurally smaller value). -/
def iterJsonNodes (json : Json) : List Json := iterJsonNodesFuel (jsonSize json + 1) json

def isProductNode : Json → Bool
  | .jobj fields =>
    (match jsonLookup fields (str "@type") with
     | some (.jstr t) => t = str "Product"
     | some (.jarr items) =>
       items.any (fun item => match item with | .jstr t => t = str "Product" | _ => false)
     | _ => false)
  | _ => false

/-- `_extract_product_jsonld`: the first `Product` node over all parsed
script payloads, in document/iteration order. -/
def extract_product_jsonld (payloads : List Json) : Option Json :=
  (payloads.flatMap iterJsonNodes).find? isProductNode

def from_product (product : Option Json) (key : Str) : Str :=
  match product with
  | Option.none => []
  | some (.jobj fields) =>
    let v0 := (jsonLookup fields key).getD Json.jnull
    let v1 := match v0 with
      | .jarr items => items.headD (Json.jstr [])
      | other => other
    let v2 := match v1 with
      | .jobj inner =>
        (match jsonLookup inner (str "name") with
         | some n => if jsonTruthy n then n
                     else (match jsonLookup inner (str "@id") with
                           | some i => if jsonTruthy i then i else Json.jstr []
                           | Option.none => Json.jstr [])
         | Option.none =>
           (match jsonLookup inner (str "@id") with
            | some i => if jsonTruthy i then i else Json.jstr []
            | Option.none => Json.jstr []))
      | other => other
    stripStr (jsonToStr v2)
  | some _ => []

def brand_from_product (product : Option Json) : Str :=
  match product with
  | Option.none => []
  | some (.jobj fields) =>
    let brand := (jsonLookup fields (str "brand")).getD (Json.jstr [])
    (match brand with
     | .jobj inner => stripStr (jsonToStr ((jsonLookup inner (str "name")).getD (Json.jstr [])))
     | .jarr (first :: _) =>
       (match first with
        | .jobj inner => stripStr (jsonToStr ((jsonLookup inner (str "name")).getD (Json.jstr [])))
        | other => stripStr (jsonToStr other))
     | .jarr [] => stripStr (jsonToStr (Json.jarr []))
     | other => stripStr (jsonToStr other))
  | some _ => []

/-- The single offers dict (`offers` itself, or its first element when it
is a list), as used by `_offer_value` / `_offer_seller_name`. -/
def offersDict (product : Option Json) : Option Json :=
  match product with
  | Option.none => Option.none
  | some (.jobj fields) =>
    (match jsonLookup fields (str "offers") with
     | some (.jarr items) => items.head?
     | some other => some other
     | Option.none => Option.none)
  | some _ => Option.none

def offer_value (product : Option Json) (key : Str) : Str :=
  match offersDict product with
  | some (.jobj inner) => stripStr (jsonToStr ((jsonLookup inner key).getD (Json.jstr [])))
  | _ => []

def offer_seller_name (product : Option Json) : Str :=
  match offersDict product with
  | some (.jobj inner) =>
    (match jsonLookup inner (str "seller") with
     | some (.jobj sellerFields) =>
       stripStr (jsonToStr ((jsonLookup sellerFields (str "name")).getD (Json.jstr [])))
     | some seller => if jsonTruthy seller then stripStr (jsonToStr seller) else []
     | Option.none => [])
  | _ => []

/-- A fetched, HTML-parsed page: the oracle record standing for
`httpx` + `BeautifulSoup` output on one candidate URL. -/
structure FetchedPage where
  final_url : Str
  jsonldPayloads : List Json
  metaTags : List (Str × Str)
  itempropPrice : Option (Option Str × Str)
  titleTag : Option Str
  pageText : Str
  html : Str

/-- `_extract_meta` lookup: keys lowered, values stripped, later meta
nodes overwrite earlier ones (Python dict assignment). -/
def metaGet (metaTags : List (Str × Str)) (key : Str) : Str :=
  match (metaTags.filter (fun kv => lowerStr kv.1 = key)).getLast? with
  | some kv => stripStr kv.2
  | Option.none => []

/-- The first group of `re.search(r"([0-9]+(?:\.[0-9]{1,2})?)", s)`. -/
def NUMBER_GROUP_PATTERN : Rx := Rx.grp rxNumber

def parse_price (value : Str) : Option ℚ :=
  if value.isEmpty then Option.none
  else
    match reSearchG1 NUMBER_GROUP_PATTERN (replaceChar value ',' Option.none) with
    | some g => some (parseFloat g)
    | Option.none => Option.none

/-- The `"price"\s*:\s*"?(number)` JSON-fragment pattern of
`_regex_find_price` (`re.IGNORECASE`). -/
def PRICE_JSON_PATTERN : Rx :=
  rxCat [litCh '"', litCI "price", litCh '"', rxWsStar, litCh ':', rxWsStar,
         Rx.rep 0 (some 1) (litCh '"'), Rx.grp rxNumber]

/-- The `\$\s*(number)` pattern of `_regex_find_price`. -/
def PRICE_DOLLAR_PATTERN : Rx :=
  rxCat [litCh '$', rxWsStar, Rx.grp rxNumber]

def regex_find_price (html : Str) : Str :=
  match reSearchG1 PRICE_JSON_PATTERN html with
  | some g => g
  | Option.none =>
    match reSearchG1 PRICE_DOLLAR_PATTERN html with
    | some g => g
    | Option.none => []

def extract_price (product : Option Json) (metaTags : List (Str × Str))
    (page : FetchedPage) : Option ℚ :=
  let candidates :=
    [offer_value product (str "price"),
     metaGet metaTags (str "product:price:amount"),
     metaGet metaTags (str "price"),
     metaGet metaTags (str "twitter:data1")]
    ++ (match page.itempropPrice with
        | some node =>
          [(match node.1 with
            | some content => if content.isEmpty then node.2 else content
            | Option.none => node.2)]
        | Option.none => [])
    ++ [regex_find_price page.html]
  candidates.firstM parse_price

def PROMO_PATTERNS : List Str :=
  [str "sale", str "save", str "discount", str "coupon", str "deal",
   str "% off", str "clearance", str "gift card"]

def extract_promo_text (page_text snippet : Str) : Str :=
  let lowered := lowerStr page_text
  let rec firstHit : List Str → Option Nat
    | [] => Option.none
    | token :: rest =>
      match findSub token lowered with
      | some idx => some idx
      | Option.none => firstHit rest
  match firstHit PROMO_PATTERNS with
  | some idx => stripStr (sliceStr page_text (idx - 40) (idx + 120))
  | Option.none => stripStr snippet

def AVAILABILITY_MAP : List (Str × Str) :=
  [(str "instock", str "in stock"), (str "outofstock", str "out of stock"),
   (str "preorder", str "preorder"), (str "limitedavailability", str "limited availability")]

def normalize_availability (value : Str) : Str :=
  let lowered := replaceChar (lowerStr value) ' ' Option.none
  match AVAILABILITY_MAP.find? (fun kv => containsSub kv.1 lowered) with
  | some kv => kv.2
  | Option.none =>
    if containsSub (str "out of stock") (lowerStr value) then str "out of stock"
    else if containsSub (str "in stock") (lowerStr value) then str "in stock"
    else str "unknown"

def USED_MARKERS : List (Str × Condition) :=
  [(str "used", Condition.used), (str "pre-owned", Condition.used),
   (str "pre owned", Condition.used), (str "renewed", Condition.refurbished),
   (str "refurbished", Condition.refurbished), (str "open box", Condition.open_box),
   (str "open-box", Condition.open_box)]

def infer_condition (title snippet page_text url : Str) : Condition :=
  let corpus := lowerStr (title ++ str " " ++ snippet ++ str " "
    ++ page_text.take 1500 ++ str " " ++ url)
  match USED_MARKERS.find? (fun kv => containsSub kv.1 corpus) with
  | some kv => kv.2
  | Option.none =>
    if containsSub (str "new") corpus then Condition.new else Condition.unknown

def humanize_domain (domain : Str) : Str :=
  let cleaned := (replaceSub (str "www.") [] domain).takeWhile (fun c => c ≠ '.')
  joinWith (str " ") ((splitWs (replaceChar cleaned '-' (some ' '))).map capitalizeStr)

def root_domain (domain : Str) : Str :=
  let cleaned := replaceSub (str "www.") [] (lowerStr domain)
  let parts := splitOnPred (fun c => c = '.') cleaned
  if 2 ≤ parts.length then joinWith (str ".") (parts.drop (parts.length - 2)) else cleaned

def first_non_empty : List Str → Str
  | [] => []
  | value :: rest => if (stripStr value).isEmpty then first_non_empty rest else stripStr value

def PRODUCT_PAGE_MARKERS : List Str :=
  [str "/dp/", str "/product/", str "/site/", str "/item/"]

structure ProductExtractorService where
  fetch : DiscoveryCandidate → Option FetchedPage
  offerIdOf : Str → Str
  max_candidates_per_platform : Nat := 2

def CandidateSource.toStr : CandidateSource → Str
  | .tavily => str "tavily"
  | .site_search => str "site_search"

/-- `_offer_from_candidate_preview`.  The result is `Except`: `.error`
models the pydantic `ValidationError` that a non-positive preview price
raises at `PurchaseOption(...)` (uncaught inside `extract_one`).  The
`condition` fallback `self._infer_condition(...)` of the source is
unreachable because every value of the `preview_condition` literal is a
non-empty (truthy) string, so the field itself is always used. -/
def offer_from_candidate_preview (svc : ProductExtractorService)
    (candidate : DiscoveryCandidate) (final_url : Option Str)
    (title brand model variant : Str) : Except Unit (Option PurchaseOption) :=
  match candidate.preview_price with
  | Option.none => Except.ok Option.none
  | some preview_price =>
    let url := final_url.getD candidate.url
    let netloc := urlNetloc url
    let source_domain := root_domain (if netloc.isEmpty then candidate.domain else netloc)
    let resolved_title :=
      if !title.isEmpty then title
      else if !candidate.title.isEmpty then candidate.title else url
    let resolved_brand := if !brand.isEmpty then brand else infer_brand resolved_title
    let resolved_model := if !model.isEmpty then model else extract_model_identifier resolved_title
    let resolved_variant :=
      if !variant.isEmpty then variant
      else extract_variant_token (resolved_title ++ str " " ++ resolved_model)
    let offer : PurchaseOption :=
      { offer_id := svc.offerIdOf url
        seller_name := humanize_domain source_domain
        source_domain := source_domain
        title := resolved_title
        brand := resolved_brand
        model := resolved_model
        variant := resolved_variant
        price := preview_price
        currency := (upperStr (if candidate.preview_currency.isEmpty then str "USD"
                               else candidate.preview_currency)).take 3
        condition := candidate.preview_condition
        promo_text := extract_promo_text candidate.snippet candidate.snippet
        availability :=
          if candidate.preview_availability.isEmpty then normalize_availability candidate.snippet
          else candidate.preview_availability
        url := url
        image := []
        relevance_score := 0
        match_confidence := 0
        parse_notes := [candidate.source.toStr, str "preview-price"] }
    if offer.pydanticValid then Except.ok (some offer) else Except.error ()

/-- `extract_one`.  `svc.fetch c = none` models any exception raised by the
`httpx.get`/`raise_for_status` block (which the source catches, degrading to
the candidate preview); `.error` models an uncaught `ValidationError`. -/
def extract_one (svc : ProductExtractorService) (candidate : DiscoveryCandidate) :
    Except Unit (Option PurchaseOption) :=
  match svc.fetch candidate with
  | Option.none => offer_from_candidate_preview svc candidate Option.none [] [] [] []
  | some page =>
    let final_url := page.final_url
    let netloc := urlNetloc final_url
    let source_domain := root_domain (if netloc.isEmpty then candidate.domain else netloc)
    let jsonld := extract_product_jsonld page.jsonldPayloads
    let title := first_non_empty
      [from_product jsonld (str "name"),
       metaGet page.metaTags (str "og:title"),
       metaGet page.metaTags (str "twitter:title"),
       candidate.title,
       (page.titleTag.map stripStr).getD []]
    let brand := first_non_empty [brand_from_product jsonld, infer_brand title]
    let model := first_non_empty
      [from_product jsonld (str "model"), from_product jsonld (str "mpn"),
       from_product jsonld (str "sku"), extract_model_identifier title]
    let variant := extract_variant_token (title ++ str " " ++ model)
    match extract_price jsonld page.metaTags page with
    | Option.none => offer_from_candidate_preview svc candidate (some final_url) title brand model variant
    | some price =>
      let currency := first_non_empty
        [offer_value jsonld (str "priceCurrency"),
         metaGet page.metaTags (str "product:price:currency"), str "USD"]
      let promo_text := extract_promo_text page.pageText candidate.snippet
      let availability := normalize_availability
        (let a := offer_value jsonld (str "availability")
         if !a.isEmpty then a
         else
           let m := metaGet page.metaTags (str "product:availability")
           if !m.isEmpty then m else page.pageText)
      let condition := infer_condition title candidate.snippet page.pageText final_url
      let image := first_non_empty
        [from_product jsonld (str "image"), metaGet page.metaTags (str "og:image")]
      let seller_name := first_non_empty
        [offer_seller_name jsonld, metaGet page.metaTags (str "og:site_name"),
         humanize_domain source_domain]
      let parse_notes :=
        [candidate.source.toStr]
        ++ (if (jsonld.map jsonTruthy).getD false then [str "jsonld"] else [str "fallback"])
        ++ (if PRODUCT_PAGE_MARKERS.any (fun marker => containsSub marker (lowerStr final_url))
            then [str "product-page"] else [])
        ++ (if !candidate.snippet.isEmpty ∧ promo_text = candidate.snippet
            then [str "promo-from-discovery"] else [])
      let offer : PurchaseOption :=
        { offer_id := svc.offerIdOf final_url
          seller_name := seller_name
          source_domain := source_domain
          title := if !title.isEmpty then title
                   else if !candidate.title.isEmpty then candidate.title else final_url
          brand := brand
          model := model
          variant := variant
          price := price
          currency := (upperStr currency).take 3
          condition := condition
          promo_text := promo_text
          availability := availability
          url := final_url
          image := image
          relevance_score := 0
          match_confidence := 0
          parse_notes := parse_notes }
      if offer.pydanticValid then Except.ok (some offer) else Except.error ()

/-- Strict comparator of the descending candidate sort key
`(score is not None, score or 0.0, len(title))` (used with `reverse=True`
both in `_select_candidates` and in discovery). -/
def candidateSortLt (a b : DiscoveryCandidate) : Bool :=
  if b.score.isSome != a.score.isSome then a.score.isSome
  else if b.score.getD 0 < a.score.getD 0 then true
  else if a.score.getD 0 < b.score.getD 0 then false
  else b.title.length < a.title.length

def select_candidates (svc : ProductExtractorService)
    (candidates : List DiscoveryCandidate) : List DiscoveryCandidate :=
  let deduped := (candidates.foldl
    (fun acc candidate =>
      if acc.any (fun c => c.url = candidate.url) then acc else acc ++ [candidate])
    [])
  let grouped := deduped.foldl
    (fun acc candidate =>
      if acc.any (fun kv => kv.1 = candidate.domain) then
        acc.map (fun kv =>
          if kv.1 = candidate.domain then (kv.1, kv.2 ++ [candidate]) else kv)
      else acc ++ [(candidate.domain, [candidate])])
    ([] : List (Str × List DiscoveryCandidate))
  (sortBy strLt (grouped.map Prod.fst)).flatMap
    (fun domain =>
      match grouped.find? (fun kv => kv.1 = domain) with
      | some kv => (sortBy candidateSortLt kv.2).take (max 1 svc.max_candidates_per_platform)
      | Option.none => [])

/-- Strict comparator of the ascending offer sort key
`(offer.source_domain, offer.price)` of `extract_many`. -/
def extractSortLt (a b : PurchaseOption) : Bool :=
  if strLt a.source_domain b.source_domain then true
  else if strLt b.source_domain a.source_domain then false
  else decide (a.price < b.price)

/-- The loop body of `extract_many`: one worker result is folded into the
accumulated `(offers, warnings)` pair. -/
def extractStep (svc : ProductExtractorService)
    (acc : List PurchaseOption × List Str) (candidate : DiscoveryCandidate) :
    List PurchaseOption × List Str :=
  match extract_one svc candidate with
  | Except.error _ =>
    (acc.1, acc.2 ++ [str "Extractor failed for " ++ candidate.domain
      ++ str ": ValidationError."])
  | Except.ok Option.none =>
    (acc.1, acc.2 ++ [str "Could not parse a priced product page for "
      ++ candidate.domain ++ str "."])
  | Except.ok (some offer) => (acc.1 ++ [offer], acc.2)

/-- `extract_many`.  The worker pool is abstracted away: results are
collected in selection order and then deterministically sorted exactly as
the source sorts them (warnings keep collection order, which the source
does not fix either). -/
def extract_many (svc : ProductExtractorService)
    (candidates : List DiscoveryCandidate) : List PurchaseOption × List Str :=
  let selected := select_candidates svc candidates
  if selected.isEmpty then ([], [])
  else
    let collected := selected.foldl (extractStep svc)
      (([] : List PurchaseOption), ([] : List Str))
    (sortBy extractSortLt collected.1, collected.2)

/-! ### Discovery qualification (`app/services/query_discovery.py`).
The Tavily search and the site-search HTML fetch are abstracted as the two
input candidate lists; the qualification filter, deduplication and sort
applied to them are modelled exactly. -/

def BLOCKED_TOKENS : List Str :=
  [str "review", str "reviews", str "blog", str "guide", str "news", str "forum",
   str "community", str "reddit", str "youtube", str "video", str "manual"]

def SEARCH_PAGE_MARKERS : List Str :=
  [str "/search", str "search?", str "?s=", str "?k=", str "&k=",
   str "category", str "collections"]

def PRODUCT_PATH_HINTS : List Str :=
  [str "/dp/", str "/gp/product/", str "/product/", str "/products/",
   str "/item/", str "/site/"]

def COMMERCE_HINTS : List Str :=
  [str "buy", str "shop", str "price", str "cart", str "in stock",
   str "pickup", str "$", str "shipping"]

def SEARCH_URL_DOMAINS : List Str :=
  [str "bestbuy.com", str "microcenter.com", str "amazon.com"]

/-- `QueryDiscoveryService.normalize_query`. -/
def normalize_query (query : Str) : Str := joinWith (str " ") (splitWs (stripStr query))

/-- The raw-token scan of `_tokenize_text`: an alphanumeric start character
followed by alphanumerics, slashes or hyphens, maximal and leftmost
(`re.findall`). -/
def discoveryRawTokensAux : Nat → Str → List Str
  | 0, _ => []
  | fuel + 1, s =>
    match s with
    | [] => []
    | c :: rest =>
      if isAlnumChar c then
        (c :: rest.takeWhile (fun d => isAlnumChar d || d = '/' || d = '-'))
          :: discoveryRawTokensAux fuel (rest.dropWhile (fun d => isAlnumChar d || d = '/' || d = '-'))
      else discoveryRawTokensAux fuel rest

def discoveryRawTokens (value : Str) : List Str :=
  discoveryRawTokensAux (value.length + 1) (lowerStr value)

/-- Adds a value to the ordered model of a Python `set` (first occurrence
fixes the position; membership and size are all the sources consume). -/
def setAdd (tokens : List Str) (token : Str) : List Str :=
  if tokens.contains token then tokens else tokens ++ [token]

/-- `_tokenize_text`. -/
def tokenizeText (value : Str) : List Str :=
  let raws := discoveryRawTokens value
  let withSingles := raws.foldl
    (fun acc raw =>
      let cleaned := raw.filter isAlnumChar
      let acc1 :=
        if !cleaned.isEmpty && (3 ≤ cleaned.length || hasDigit cleaned) then
          setAdd acc.1 cleaned
        else acc.1
      let parts := (runsOfPred isAlnumChar raw).filter
        (fun part => 3 ≤ part.length || hasDigit part)
      (parts.foldl setAdd acc1, acc.2 ++ parts))
    (([] : List Str), ([] : List Str))
  let tokens := withSingles.1
  let split_parts := withSingles.2
  ([2, 3].foldl
    (fun acc window =>
      (windowsOf window split_parts).foldl
        (fun acc2 parts =>
          let combined := parts.flatten
          if !combined.isEmpty && hasDigit combined && 4 ≤ combined.length then
            setAdd acc2 combined
          else acc2)
        acc)
    tokens)

def token_overlap (query_tokens : List Str) (haystack : Str) : ℚ :=
  if query_tokens.isEmpty then 0
  else
    let haystack_tokens := tokenizeText haystack
    let hits := (query_tokens.filter (fun token => haystack_tokens.contains token)).length
    qdiv (mkRat hits 1) (mkRat (max query_tokens.length 1 : Nat) 1)

def reject_candidate (candidate : DiscoveryCandidate) : Bool :=
  let hostname := replaceSub (str "www.") [] (lowerStr (urlNetloc candidate.url))
  let path := lowerStr (urlPath candidate.url)
  let text := lowerStr (candidate.title ++ str " " ++ candidate.snippet ++ str " " ++ candidate.url)
  hostname.isEmpty
    || BLOCKED_TOKENS.any (fun token => containsSub token text)
    || SEARCH_PAGE_MARKERS.any (fun marker =>
         containsSub marker path || containsSub marker (lowerStr candidate.url))
    || containsSub (str "accessories") path || containsSub (str "replacement") path

def has_product_hint (candidate : DiscoveryCandidate) : Bool :=
  let lowered_url := lowerStr candidate.url
  let lowered_text := lowerStr (candidate.title ++ str " " ++ candidate.snippet)
  PRODUCT_PATH_HINTS.any (fun hint => containsSub hint lowered_url)
    || COMMERCE_HINTS.any (fun token => containsSub token lowered_text)

def has_commerce_hint (candidate : DiscoveryCandidate) : Bool :=
  let lowered_text := lowerStr (candidate.title ++ str " " ++ candidate.snippet)
  COMMERCE_HINTS.any (fun token => containsSub token lowered_text)
    || containsSub (str "$") lowered_text

/-- The loop body of `qualify_candidates`: one raw hit is filtered and
scored against the tokenized normalized query. -/
def qualifyStep (query_tokens : List Str) (qualified : List DiscoveryCandidate)
    (candidate : DiscoveryCandidate) : List DiscoveryCandidate :=
  if reject_candidate candidate then qualified
  else
    let overlap := token_overlap query_tokens
      (candidate.title ++ str " " ++ candidate.snippet ++ str " " ++ candidate.url)
    let product_hint := has_product_hint candidate
    let commerce_hint := has_commerce_hint candidate
    let domain_hint := SEARCH_URL_DOMAINS.contains (root_domain candidate.domain)
    if !product_hint ∧ overlap < (if domain_hint then mkRat 35 100 else mkRat 5 10) then
      qualified
    else if !commerce_hint
        ∧ overlap < (if product_hint || domain_hint then mkRat 4 10 else mkRat 65 100) then
      qualified
    else
      qualified ++ [{ candidate with
        score := some (round4 (pymax ((candidate.score).getD 0) overlap)) }]

def qualify_candidates (candidates : List DiscoveryCandidate)
    (normalized_query : Str) : List DiscoveryCandidate :=
  candidates.foldl (qualifyStep (tokenizeText normalized_query)) []

/-- The loop body of `_dedupe_candidates`: a URL-keyed dict entry is
inserted, or replaced when the new duplicate scores higher (a replacement
keeps the key position — Python dict semantics). -/
def dedupeStep (by_url : List (Str × DiscoveryCandidate))
    (candidate : DiscoveryCandidate) : List (Str × DiscoveryCandidate) :=
  if by_url.any (fun kv => kv.1 = candidate.url) then
    by_url.map (fun kv =>
      if kv.1 = candidate.url ∧ (kv.2.score).getD 0 < (candidate.score).getD 0 then
        (kv.1, candidate)
      else kv)
  else by_url ++ [(candidate.url, candidate)]

/-- `_dedupe_candidates`. -/
def dedupe_candidates (candidates : List DiscoveryCandidate) : List DiscoveryCandidate :=
  (candidates.foldl dedupeStep ([] : List (Str × DiscoveryCandidate))).map Prod.snd

/-- The deduplicated, sorted qualified-candidate list that `discover`
returns, with the two network-produced raw lists (Tavily hits and
site-search fallback candidates) as oracle inputs. -/
def discoverCandidates (rawCandidates fallbackCandidates : List DiscoveryCandidate)
    (normalized_query : Str) : List DiscoveryCandidate :=
  sortBy candidateSortLt
    (dedupe_candidates
      (qualify_candidates rawCandidates normalized_query
        ++ qualify_candidates fallbackCandidates normalized_query))

/-! ### Arithmetic facts about the rational model -/

theorem qmul_eq (a b : ℚ) : qmul a b = a * b := by
  conv_rhs => rw [← Rat.num_div_den a, ← Rat.num_div_den b, div_mul_div_comm]
  rw [qmul, Rat.mkRat_eq_div]
  push_cast
  rfl

theorem qadd_eq (a b : ℚ) : qadd a b = a + b := by
  conv_rhs => rw [← Rat.num_div_den a, ← Rat.num_div_den b,
    div_add_div _ _ (by positivity : ((a.den : ℚ)) ≠ 0) (by positivity : ((b.den : ℚ)) ≠ 0)]
  rw [qadd, Rat.mkRat_eq_div]
  push_cast
  ring_nf

theorem qsub_eq (a b : ℚ) : qsub a b = a - b := by
  conv_rhs => rw [← Rat.num_div_den a, ← Rat.num_div_den b,
    div_sub_div _ _ (by positivity : ((a.den : ℚ)) ≠ 0) (by positivity : ((b.den : ℚ)) ≠ 0)]
  rw [qsub, Rat.mkRat_eq_div]
  push_cast
  ring_nf

theorem qadd_zero (a : ℚ) : qadd a 0 = a := by rw [qadd_eq, add_zero]

theorem floorQ_eq (x : ℚ) : floorQ x = Int.floor x := by
  rw [floorQ, Rat.floor_def, Int.fdiv_eq_ediv _ (by positivity)]

theorem mkRat_one (k : ℤ) : mkRat k 1 = (k : ℚ) := by
  rw [Rat.mkRat_eq_div]; norm_num

theorem half_pos_q : (0 : ℚ) < mkRat 1 2 := by
  rw [Rat.mkRat_eq_div]; norm_num

theorem roundHalfEven_mem (x : ℚ) :
    roundHalfEven x = floorQ x ∨ roundHalfEven x = floorQ x + 1 := by
  rw [roundHalfEven]
  split
  · exact Or.inl rfl
  · split
    · exact Or.inr rfl
    · split
      · exact Or.inl rfl
      · exact Or.inr rfl

theorem roundHalfEven_intCast (k : ℤ) : roundHalfEven ((k : ℤ) : ℚ) = k := by
  have hn : floorQ ((k : ℤ) : ℚ) = k := by rw [floorQ_eq]; exact Int.floor_intCast k
  show (if qsub ((k : ℤ) : ℚ) (mkRat (floorQ ((k : ℤ) : ℚ)) 1) < mkRat 1 2 then
          floorQ ((k : ℤ) : ℚ)
        else if mkRat 1 2 < qsub ((k : ℤ) : ℚ) (mkRat (floorQ ((k : ℤ) : ℚ)) 1) then
          floorQ ((k : ℤ) : ℚ) + 1
        else if floorQ ((k : ℤ) : ℚ) % 2 = 0 then floorQ ((k : ℤ) : ℚ)
        else floorQ ((k : ℤ) : ℚ) + 1) = k
  rw [hn]
  have hf : qsub ((k : ℤ) : ℚ) (mkRat k 1) = 0 := by rw [qsub_eq, mkRat_one, sub_self]
  rw [hf, if_pos half_pos_q]

theorem roundHalfEven_ge (a : ℤ) (x : ℚ) (h : (a : ℚ) ≤ x) : a ≤ roundHalfEven x := by
  have hfloor : a ≤ floorQ x := by rw [floorQ_eq]; exact Int.le_floor.mpr h
  rcases roundHalfEven_mem x with hm | hm <;> omega

theorem roundHalfEven_le (b : ℤ) (x : ℚ) (h : x ≤ (b : ℚ)) : roundHalfEven x ≤ b := by
  have hfloor : floorQ x ≤ b := by
    rw [floorQ_eq]
    exact le_of_le_of_eq (Int.floor_le_floor h) (Int.floor_intCast b)
  rcases eq_or_lt_of_le hfloor with heq | hlt
  · have hxb : x = ((b : ℤ) : ℚ) := by
      refine le_antisymm h ?_
      rw [← heq, floorQ_eq]
      exact_mod_cast Int.floor_le x
    rw [hxb, roundHalfEven_intCast]
  · rcases roundHalfEven_mem x with hm | hm <;> omega

theorem mkRat_le_mkRat (a b : ℤ) (d : ℕ) (hd : 0 < d) (h : a ≤ b) :
    mkRat a d ≤ mkRat b d := by
  rw [Rat.mkRat_eq_div, Rat.mkRat_eq_div]
  have hdq : (0 : ℚ) < (d : ℚ) := by exact_mod_cast hd
  have hab : (a : ℚ) ≤ (b : ℚ) := by exact_mod_cast h
  gcongr

theorem le_pymax_left (a b c : ℚ) (h : a ≤ b) : a ≤ pymax b c := by
  rw [pymax]; split
  · exact h
  · rename_i hn; exact h.trans (le_of_not_le hn)

theorem le_pymax_right (a b c : ℚ) (h : a ≤ c) : a ≤ pymax b c := by
  rw [pymax]; split
  · rename_i hle; exact h.trans hle
  · exact h

theorem pymax_le (a b c : ℚ) (h1 : a ≤ c) (h2 : b ≤ c) : pymax a b ≤ c := by
  rw [pymax]; split
  · exact h1
  · exact h2

theorem pymin_le_left (a b : ℚ) : pymin a b ≤ a := by
  rw [pymin]; split
  · exact le_refl a
  · rename_i hn; exact le_of_not_le hn

theorem pymin_le_right (a b : ℚ) : pymin a b ≤ b := by
  rw [pymin]; split
  · assumption
  · exact le_refl b

theorem le_pymin (a b c : ℚ) (h1 : c ≤ a) (h2 : c ≤ b) : c ≤ pymin a b := by
  rw [pymin]; split
  · exact h1
  · exact h2

theorem clampQ_ge (lo hi x : ℚ) : lo ≤ clampQ lo hi x :=
  le_pymax_left lo lo (pymin hi x) (le_refl lo)

theorem clampQ_le (lo hi x : ℚ) (h : lo ≤ hi) : clampQ lo hi x ≤ hi :=
  pymax_le lo (pymin hi x) hi h (pymin_le_left hi x)

theorem qmul_hundred (x : ℚ) : qmul x (mkRat 100 1) = x * 100 := by
  rw [qmul_eq, mkRat_one]
  norm_num

theorem round2_le (b : ℤ) (x : ℚ) (h : x ≤ mkRat b 100) : round2 x ≤ mkRat b 100 := by
  rw [round2]
  refine mkRat_le_mkRat _ _ 100 (by norm_num) ?_
  refine roundHalfEven_le b _ ?_
  rw [qmul_hundred]
  rw [Rat.mkRat_eq_div] at h
  push_cast at h
  have h100 : (0 : ℚ) < 100 := by norm_num
  calc x * 100 ≤ ((b : ℚ) / 100) * 100 := by gcongr
    _ = (b : ℚ) := by field_simp

theorem round2_ge (a : ℤ) (x : ℚ) (h : mkRat a 100 ≤ x) : mkRat a 100 ≤ round2 x := by
  rw [round2]
  refine mkRat_le_mkRat _ _ 100 (by norm_num) ?_
  refine roundHalfEven_ge a _ ?_
  rw [qmul_hundred]
  rw [Rat.mkRat_eq_div] at h
  push_cast at h
  have h100 : (0 : ℚ) < 100 := by norm_num
  calc (a : ℚ) = ((a : ℚ) / 100) * 100 := by field_simp
    _ ≤ x * 100 := by gcongr

theorem round2_mkRat_hundred (k : ℤ) : round2 (mkRat k 100) = mkRat k 100 := by
  have hq : qmul (mkRat k 100) (mkRat 100 1) = ((k : ℤ) : ℚ) := by
    rw [qmul_eq, mkRat_one, Rat.mkRat_eq_div]
    field_simp
  rw [round2, hq, roundHalfEven_intCast]

theorem round2_round2 (x : ℚ) : round2 (round2 x) = round2 x :=
  round2_mkRat_hundred _

theorem pymin_eq_of_le (hi y : ℚ) (h : y ≤ hi) : pymin hi y = y := by
  rw [pymin]; split
  · rename_i hle; exact le_antisymm hle h
  · rfl

theorem pymax_eq_of_le (lo y : ℚ) (h : lo ≤ y) : pymax lo y = y := by
  rw [pymax]; split
  · rename_i hle; exact le_antisymm h hle
  · rfl

theorem analyzeBaseConfidence_ge (c : ComparisonCluster) (n : Nat) :
    mkRat 25 100 ≤ analyzeBaseConfidence c n := by
  rw [analyzeBaseConfidence]
  refine round2_ge 25 _ ?_
  refine le_pymin _ _ _ (by decide) ?_
  exact le_pymax_left _ _ _ (le_refl _)

theorem analyzeBaseConfidence_le (c : ComparisonCluster) (n : Nat) :
    analyzeBaseConfidence c n ≤ mkRat 99 100 := by
  rw [analyzeBaseConfidence]
  exact round2_le 99 _ (pymin_le_left _ _)

/-- The identity nudge: clamping and re-rounding the already-computed
confidence with adjustment 0 gives it back unchanged. -/
theorem round2_clamp_base (c : ComparisonCluster) (n : Nat) :
    round2 (pymax (mkRat 25 100) (pymin (mkRat 99 100)
      (qadd (analyzeBaseConfidence c n) 0))) = analyzeBaseConfidence c n := by
  rw [qadd_zero]
  rw [pymin_eq_of_le _ _ (analyzeBaseConfidence_le c n)]
  rw [pymax_eq_of_le _ _ (analyzeBaseConfidence_ge c n)]
  rw [analyzeBaseConfidence, round2_round2]
theorem explain_pricing_adjustment_bounds (c : LLMClient) (q : Str)
    (offers : List PurchaseOption) (draft : DraftFinding) (n : LLMPricingNarrative)
    (h : c.explain_pricing_comparison q offers draft = some n) :
    mkRat (-1) 10 ≤ n.confidence_adjustment ∧ n.confidence_adjustment ≤ mkRat 1 10 := by
  rw [LLMClient.explain_pricing_comparison] at h
  split at h
  · exact absurd h (by simp)
  · split at h
    · exact absurd h (by simp)
    · simp only [] at h
      split at h
      · exact absurd h (by simp)
      · rw [Option.some.injEq] at h
        subst h
        exact ⟨clampQ_ge _ _ _, clampQ_le _ _ _ (by decide)⟩

/-- The post-narrative `(reasoning, claim text, confidence)` triple of
`analyze`: whatever the LLM collaborator does, the final confidence is the
clamped, re-rounded base confidence nudged by some adjustment in
[-0.10, 0.10] (0 when no narrative was produced). -/
theorem afterLLM_conf (svc : DifferentialPricingService) (q : Str)
    (offers : List PurchaseOption) (draft : DraftFinding) (c : ComparisonCluster)
    (n : Nat) (reasoning claim : Str) :
    ∃ adj, mkRat (-1) 10 ≤ adj ∧ adj ≤ mkRat 1 10 ∧
      (match svc.llm with
       | Option.none => (reasoning, claim, analyzeBaseConfidence c n)
       | some llm =>
         if llm.enabled then
           match llm.explain_pricing_comparison q offers draft with
           | some narrative =>
             (narrative.reasoning, narrative.claim_style_text,
              round2 (pymax (mkRat 25 100) (pymin (mkRat 99 100)
                (qadd (analyzeBaseConfidence c n) narrative.confidence_adjustment))))
           | Option.none => (reasoning, claim, analyzeBaseConfidence c n)
         else (reasoning, claim, analyzeBaseConfidence c n)).2.2
      = round2 (pymax (mkRat 25 100) (pymin (mkRat 99 100)
          (qadd (analyzeBaseConfidence c n) adj))) := by
  cases hllm : svc.llm with
  | none => exact ⟨0, by decide, by decide, (round2_clamp_base c n).symm⟩
  | some llm =>
    simp only []
    by_cases hen : llm.enabled
    · rw [if_pos hen]
      cases hexp : llm.explain_pricing_comparison q offers draft with
      | none => exact ⟨0, by decide, by decide, (round2_clamp_base c n).symm⟩
      | some narrative =>
        obtain ⟨hlo, hhi⟩ := explain_pricing_adjustment_bounds _ _ _ _ _ hexp
        exact ⟨narrative.confidence_adjustment, hlo, hhi, rfl⟩
    · rw [if_neg hen]
      exact ⟨0, by decide, by decide, (round2_clamp_base c n).symm⟩

/-- Decomposition of a successful `analyze` run into the named arithmetic
pieces of the source. -/
theorem analyze_some_spec (svc : DifferentialPricingService) (q : Str)
    (c : ComparisonCluster) (f : PricingFinding) (h : analyze svc q c = some f) :
    ∃ lowest rest,
      sortedOffers c = lowest :: rest ∧
      f.spread_percent = spreadPercent lowest ((lowest :: rest).getLast (List.cons_ne_nil lowest rest)) ∧
      f.alert_eligible = alertEligible c (lowest :: rest) f.spread_percent (promo_gap_percent (lowest :: rest)) ∧
      f.label = labelOf f.alert_eligible (pymax f.spread_percent (promo_gap_percent (lowest :: rest))) ∧
      f.lowest_offer_id = lowest.offer_id ∧
      f.highest_offer_id = ((lowest :: rest).getLast (List.cons_ne_nil lowest rest)).offer_id ∧
      (∃ adj, mkRat (-1) 10 ≤ adj ∧ adj ≤ mkRat 1 10 ∧
        f.confidence = round2 (pymax (mkRat 25 100) (pymin (mkRat 99 100)
          (qadd (analyzeBaseConfidence c (lowest :: rest).length) adj)))) := by
  rw [analyze] at h
  cases hs : sortedOffers c with
  | nil => rw [hs] at h; exact absurd h (by simp)
  | cons lowest rest =>
    rw [hs] at h
    simp only [] at h
    rw [Option.some.injEq] at h
    subst h
    refine ⟨lowest, rest, rfl, rfl, rfl, rfl, rfl, rfl, ?_⟩
    exact afterLLM_conf svc q (lowest :: rest) _ c (lowest :: rest).length _ _

theorem alertEligible_eq_true_iff (c : ComparisonCluster) (offers : List PurchaseOption)
    (sp pg : ℚ) :
    alertEligible c offers sp pg = true ↔
      (3 ≤ offers.length
        ∧ (∀ o ∈ offers, o.condition = Condition.new ∨ o.condition = Condition.unknown)
        ∧ mkRat 85 100 ≤ c.confidence
        ∧ (mkRat 8 1 ≤ sp ∨ mkRat 10 1 ≤ pg)) := by
  rw [alertEligible]
  simp only [Bool.and_eq_true, Bool.or_eq_true, decide_eq_true_eq, List.all_eq_true,
    beq_iff_eq, and_assoc]

theorem sortedOffers_length (c : ComparisonCluster) :
    (sortedOffers c).length = c.offers.length := by
  rw [sortedOffers]; exact length_sortBy _ _

theorem sortedOffers_mem (c : ComparisonCluster) (o : PurchaseOption) :
    o ∈ sortedOffers c ↔ o ∈ c.offers := by
  rw [sortedOffers]; exact mem_sortBy _ _ _

/-! ### Concrete inputs used by witnesses and counterexamples -/

/-- A three-offer same-product cluster (the shape exercised by the
repository's own tests), prices 349.99 / 299.99 / 339.99, all new,
confidence 0.96. -/
def offerBB : PurchaseOption :=
  { offer_id := str "1", seller_name := str "Best Buy", source_domain := str "bestbuy.com",
    title := str "Sony WH-1000XM5", brand := str "Sony", model := str "WH-1000XM5",
    variant := [], price := mkRat 34999 100, url := str "https://example.com/bb",
    condition := Condition.new, relevance_score := mkRat 95 100,
    match_confidence := mkRat 96 100 }

def offerMC : PurchaseOption :=
  { offer_id := str "2", seller_name := str "Micro Center", source_domain := str "microcenter.com",
    title := str "Sony WH-1000XM5", brand := str "Sony", model := str "WH-1000XM5",
    variant := [], price := mkRat 29999 100, url := str "https://example.com/mc",
    condition := Condition.new, relevance_score := mkRat 92 100,
    match_confidence := mkRat 96 100 }

def offerAZ : PurchaseOption :=
  { offer_id := str "3", seller_name := str "Amazon", source_domain := str "amazon.com",
    title := str "Sony WH-1000XM5", brand := str "Sony", model := str "WH-1000XM5",
    variant := [], price := mkRat 33999 100, url := str "https://example.com/amz",
    condition := Condition.new, relevance_score := mkRat 91 100,
    match_confidence := mkRat 96 100 }

def exampleCluster3 : ComparisonCluster :=
  { cluster_id := str "exact::sony::wh 1000xm5::", brand := str "Sony",
    model := str "WH-1000XM5", variant := [], match_method := MatchMethod.exact_model,
    confidence := mkRat 96 100, offer_count := 3,
    domains := [str "amazon.com", str "bestbuy.com", str "microcenter.com"],
    offers := [offerBB, offerMC, offerAZ] }

/-- A two-offer version of the same cluster. -/
def exampleCluster2 : ComparisonCluster :=
  { exampleCluster3 with offer_count := 2, offers := [offerBB, offerMC] }

/-- A cluster whose `offers` list is empty even though its `offer_count`
field (the only length-like pydantic constraint) says 2. -/
def emptyOffersCluster : ComparisonCluster :=
  { cluster_id := str "exact::sony::wh 1000xm5::", brand := str "Sony",
    model := str "WH-1000XM5", variant := [], match_method := MatchMethod.exact_model,
    confidence := mkRat 96 100, offer_count := 2, domains := [], offers := [] }

/-- C1: for every cluster analyzed, `alert_eligible` holds iff the
conjunctive gate holds: at least 3 member offers, all conditions
new/unknown, cluster confidence at least 0.85, and spread at least 8% or
promo gap at least 10%; in particular a 2-offer cluster is never
alert-eligible. -/
theorem c1_alert_gate (svc : DifferentialPricingService) (q : Str)
    (c : ComparisonCluster) (f : PricingFinding) (h : analyze svc q c = some f) :
    (f.alert_eligible = true ↔
      (3 ≤ c.offers.length
        ∧ (∀ o ∈ c.offers, o.condition = Condition.new ∨ o.condition = Condition.unknown)
        ∧ mkRat 85 100 ≤ c.confidence
        ∧ (mkRat 8 1 ≤ f.spread_percent
            ∨ mkRat 10 1 ≤ promo_gap_percent (sortedOffers c))))
    ∧ (c.offers.length = 2 → f.alert_eligible = false) := by
  obtain ⟨lowest, rest, hs, hsp, hae, hlab, hlo, hhi, hconf⟩ := analyze_some_spec svc q c f h
  have hlen : (lowest :: rest).length = c.offers.length := by
    rw [← hs]; exact sortedOffers_length c
  have hiff : f.alert_eligible = true ↔
      (3 ≤ c.offers.length
        ∧ (∀ o ∈ c.offers, o.condition = Condition.new ∨ o.condition = Condition.unknown)
        ∧ mkRat 85 100 ≤ c.confidence
        ∧ (mkRat 8 1 ≤ f.spread_percent
            ∨ mkRat 10 1 ≤ promo_gap_percent (sortedOffers c))) := by
    rw [hae, alertEligible_eq_true_iff, hlen, ← hs]
    constructor
    · rintro ⟨h1, h2, h3, h4⟩
      exact ⟨h1, fun o ho => h2 o ((sortedOffers_mem c o).mpr ho), h3, h4⟩
    · rintro ⟨h1, h2, h3, h4⟩
      exact ⟨h1, fun o ho => h2 o ((sortedOffers_mem c o).mp ho), h3, h4⟩
  refine ⟨hiff, ?_⟩
  intro h2
  cases hb : f.alert_eligible with
  | false => rfl
  | true => exact absurd (hiff.mp hb).1 (by omega)

/-- Witness for C1 on the concrete three-offer cluster. -/
theorem c1_alert_gate_witness :
    ∃ f, analyze { llm := Option.none } (str "sony wh-1000xm5") exampleCluster3 = some f
      ∧ ((f.alert_eligible = true ↔
          (3 ≤ exampleCluster3.offers.length
            ∧ (∀ o ∈ exampleCluster3.offers,
                o.condition = Condition.new ∨ o.condition = Condition.unknown)
            ∧ mkRat 85 100 ≤ exampleCluster3.confidence
            ∧ (mkRat 8 1 ≤ f.spread_percent
                ∨ mkRat 10 1 ≤ promo_gap_percent (sortedOffers exampleCluster3))))
        ∧ (exampleCluster3.offers.length = 2 → f.alert_eligible = false)) := by
  cases heval : analyze { llm := Option.none } (str "sony wh-1000xm5") exampleCluster3 with
  | none => exact absurd heval (by decide)
  | some f => exact ⟨f, rfl, c1_alert_gate _ _ _ f heval⟩

/-- C2: a non-`none` label implies alert eligibility, and an alert-eligible
finding carries one of the labels watch/high/critical (the below-8 branch
is unreachable because the gate forces the effective gap to at least 8). -/
theorem c2_label_alert (svc : DifferentialPricingService) (q : Str)
    (c : ComparisonCluster) (f : PricingFinding) (h : analyze svc q c = some f) :
    (f.label ≠ Label.none → f.alert_eligible = true)
    ∧ (f.alert_eligible = true →
        (f.label = Label.watch ∨ f.label = Label.high ∨ f.label = Label.critical)) := by
  obtain ⟨lowest, rest, hs, hsp, hae, hlab, _, _, _⟩ := analyze_some_spec svc q c f h
  constructor
  · intro hne
    cases hb : f.alert_eligible with
    | true => rfl
    | false =>
      exfalso
      apply hne
      rw [hlab, hb, labelOf, if_neg (by simp)]
  · intro htrue
    have hgate := (alertEligible_eq_true_iff c (lowest :: rest) f.spread_percent
      (promo_gap_percent (lowest :: rest))).mp (by rw [← hae]; exact htrue)
    have h8 : mkRat 8 1 ≤ pymax f.spread_percent (promo_gap_percent (lowest :: rest)) := by
      rcases hgate.2.2.2 with hsp8 | hpg10
      · exact le_pymax_left _ _ _ hsp8
      · exact le_pymax_right _ _ _ ((by decide : mkRat 8 1 ≤ mkRat 10 1).trans hpg10)
    rw [hlab, htrue, labelOf, if_pos rfl]
    rcases le_or_lt (mkRat 25 1) (pymax f.spread_percent (promo_gap_percent (lowest :: rest)))
      with h25 | h25
    · rw [if_pos h25]; exact Or.inr (Or.inr rfl)
    · rw [if_neg (not_le.mpr h25)]
      rcases le_or_lt (mkRat 15 1) (pymax f.spread_percent (promo_gap_percent (lowest :: rest)))
        with h15 | h15
      · rw [if_pos h15]; exact Or.inr (Or.inl rfl)
      · rw [if_neg (not_le.mpr h15), if_pos h8]; exact Or.inl rfl

/-- Witness for C2 on the concrete three-offer cluster. -/
theorem c2_label_alert_witness :
    ∃ f, analyze { llm := Option.none } (str "sony wh-1000xm5") exampleCluster3 = some f
      ∧ (f.label ≠ Label.none → f.alert_eligible = true)
      ∧ (f.alert_eligible = true →
          (f.label = Label.watch ∨ f.label = Label.high ∨ f.label = Label.critical)) := by
  cases heval : analyze { llm := Option.none } (str "sony wh-1000xm5") exampleCluster3 with
  | none => exact absurd heval (by decide)
  | some f =>
    exact ⟨f, rfl, (c2_label_alert _ _ _ f heval).1, (c2_label_alert _ _ _ f heval).2⟩

/-- C5: the LLM narrative collaborator is a frame: label, alert
eligibility, spread and the two boundary offer ids are identical across
runs with any two collaborator configurations (in particular with and
without a responding LLM, and across re-runs on the same cluster), and the
confidence is always the already-computed base confidence nudged by an
adjustment clamped to [-0.10, 0.10] and re-clamped to [0.25, 0.99]. -/
theorem c5_llm_frame (svc₁ svc₂ : DifferentialPricingService) (q : Str)
    (c : ComparisonCluster) (f₁ f₂ : PricingFinding)
    (h₁ : analyze svc₁ q c = some f₁) (h₂ : analyze svc₂ q c = some f₂) :
    f₁.label = f₂.label
    ∧ f₁.alert_eligible = f₂.alert_eligible
    ∧ f₁.spread_percent = f₂.spread_percent
    ∧ f₁.lowest_offer_id = f₂.lowest_offer_id
    ∧ f₁.highest_offer_id = f₂.highest_offer_id
    ∧ (∃ adj, mkRat (-1) 10 ≤ adj ∧ adj ≤ mkRat 1 10 ∧
        f₁.confidence = round2 (pymax (mkRat 25 100) (pymin (mkRat 99 100)
          (qadd (analyzeBaseConfidence c c.offers.length) adj)))) := by
  obtain ⟨l₁, r₁, hs₁, hsp₁, hae₁, hlab₁, hlo₁, hhi₁, hconf₁⟩ := analyze_some_spec svc₁ q c f₁ h₁
  obtain ⟨l₂, r₂, hs₂, hsp₂, hae₂, hlab₂, hlo₂, hhi₂, hconf₂⟩ := analyze_some_spec svc₂ q c f₂ h₂
  have hcons : l₁ :: r₁ = l₂ :: r₂ := hs₁.symm.trans hs₂
  rw [List.cons.injEq] at hcons
  obtain ⟨hl, hr⟩ := hcons
  subst hl; subst hr
  have hspread : f₁.spread_percent = f₂.spread_percent := hsp₁.trans hsp₂.symm
  have halert : f₁.alert_eligible = f₂.alert_eligible := by
    rw [hae₁, hae₂, hspread]
  refine ⟨?_, halert, hspread, hlo₁.trans hlo₂.symm, hhi₁.trans hhi₂.symm, ?_⟩
  · rw [hlab₁, hlab₂, hspread, halert]
  · obtain ⟨adj, hlo, hhi, hconf⟩ := hconf₁
    have hlen : (l₁ :: r₁).length = c.offers.length := by
      rw [← hs₁]; exact sortedOffers_length c
    exact ⟨adj, hlo, hhi, by rw [hconf, hlen]⟩

/-- An enabled LLM client whose narrative oracle always replies (with an
out-of-range raw adjustment that the client clamps). -/
def witnessNarrativeLLM : LLMClient :=
  { provider := str "gemini", api_key := str "k", model := str "gemini-2.5-pro",
    fuzzyOracle := fun _ _ => Option.none,
    narrativeOracle := fun _ _ _ => some
      { reasoning := str "LLM text", claim_style_text := str "LLM claim",
        confidence_adjustment := mkRat 5 10 } }

/-- Witness for C5: the three-offer cluster analyzed without an LLM and
with an enabled LLM whose oracle replies with text and a +0.5 (pre-clamp)
adjustment. -/
theorem c5_llm_frame_witness :
    ∃ f₁ f₂,
      analyze { llm := Option.none } (str "sony wh-1000xm5") exampleCluster3 = some f₁
      ∧ analyze { llm := some witnessNarrativeLLM }
          (str "sony wh-1000xm5") exampleCluster3 = some f₂
      ∧ f₁.label = f₂.label
      ∧ f₁.alert_eligible = f₂.alert_eligible
      ∧ f₁.spread_percent = f₂.spread_percent
      ∧ f₁.lowest_offer_id = f₂.lowest_offer_id
      ∧ f₁.highest_offer_id = f₂.highest_offer_id
      ∧ (∃ adj, mkRat (-1) 10 ≤ adj ∧ adj ≤ mkRat 1 10 ∧
          f₁.confidence = round2 (pymax (mkRat 25 100) (pymin (mkRat 99 100)
            (qadd (analyzeBaseConfidence exampleCluster3 exampleCluster3.offers.length) adj)))) := by
  cases heval₁ : analyze { llm := Option.none } (str "sony wh-1000xm5") exampleCluster3 with
  | none => exact absurd heval₁ (by decide)
  | some f₁ =>
    cases heval₂ : analyze { llm := some witnessNarrativeLLM }
        (str "sony wh-1000xm5") exampleCluster3 with
    | none => exact absurd heval₂ (by decide)
    | some f₂ =>
      obtain ⟨ha, hb, hc, hd, he, hf⟩ := c5_llm_frame _ _ _ _ f₁ f₂ heval₁ heval₂
      exact ⟨f₁, f₂, rfl, rfl, ha, hb, hc, hd, he, hf⟩

/-- C4: `spread_percent` is the rounded relative gap between the last and
first offer of the price-ascending sort (guarded at non-positive lowest
price), and on the concrete 349.99/299.99/339.99 all-new cluster with
confidence 0.96 it evaluates to 16.67 (within 0.01 of the spec's ≈16.68),
with the finding alert-eligible and labelled high. -/
theorem c4_spread_example :
    (∀ (svc : DifferentialPricingService) (q : Str) (c : ComparisonCluster)
        (f : PricingFinding) (lowest : PurchaseOption) (rest : List PurchaseOption),
      analyze svc q c = some f → sortedOffers c = lowest :: rest →
      f.spread_percent =
        (if 0 < lowest.price then
          round2 (qmul (qdiv
            (qsub ((lowest :: rest).getLast (List.cons_ne_nil lowest rest)).price lowest.price)
            lowest.price) (mkRat 100 1))
         else 0))
    ∧ (∃ f, analyze { llm := Option.none } (str "sony wh-1000xm5") exampleCluster3 = some f
        ∧ f.spread_percent = mkRat 1667 100
        ∧ |f.spread_percent - mkRat 1668 100| ≤ mkRat 1 100
        ∧ f.alert_eligible = true
        ∧ (f.label = Label.high ∨ f.label = Label.critical)) := by
  constructor
  · intro svc q c f lowest rest h hs
    obtain ⟨l, r, hs2, hsp, _⟩ := analyze_some_spec svc q c f h
    have hcons : l :: r = lowest :: rest := hs2.symm.trans hs
    rw [List.cons.injEq] at hcons
    obtain ⟨hl, hr⟩ := hcons
    subst hl; subst hr
    rw [hsp, spreadPercent]
  · cases heval : analyze { llm := Option.none } (str "sony wh-1000xm5") exampleCluster3 with
    | none => exact absurd heval (by decide)
    | some f =>
      have h0 : (analyze { llm := Option.none } (str "sony wh-1000xm5")
          exampleCluster3).map (fun g => (g.spread_percent, g.alert_eligible, g.label))
          = some (mkRat 1667 100, true, Label.high) := by decide
      rw [heval] at h0
      simp only [Option.map_some', Option.some.injEq, Prod.mk.injEq] at h0
      obtain ⟨hsp, hae, hlab⟩ := h0
      refine ⟨f, rfl, hsp, ?_, hae, Or.inl hlab⟩
      rw [hsp]
      have hd : (mkRat 1667 100 : ℚ) - mkRat 1668 100 = -(mkRat 1 100) := by
        rw [Rat.mkRat_eq_div, Rat.mkRat_eq_div, Rat.mkRat_eq_div]; norm_num
      rw [hd, abs_neg, abs_of_nonneg (by rw [Rat.mkRat_eq_div]; positivity)]

/-- C10: `analyze` succeeds on every cluster with a non-empty member list
(the division is guarded and promo arithmetic is total), and fails (the
`offers[0]` IndexError, modelled as `none`) exactly on an empty member
list — which the pydantic model admits, since it only constrains
`offer_count`, not `len(offers)`. -/
theorem c10_analyze_totality :
    (∀ (svc : DifferentialPricingService) (q : Str) (c : ComparisonCluster),
       c.offers ≠ [] → ∃ f, analyze svc q c = some f)
    ∧ (∀ (svc : DifferentialPricingService) (q : Str) (c : ComparisonCluster),
       c.offers = [] → analyze svc q c = Option.none)
    ∧ (emptyOffersCluster.pydanticValid = true ∧ emptyOffersCluster.offers = []
       ∧ ∀ (svc : DifferentialPricingService) (q : Str),
           analyze svc q emptyOffersCluster = Option.none) := by
  have hempty : ∀ (svc : DifferentialPricingService) (q : Str) (c : ComparisonCluster),
      c.offers = [] → analyze svc q c = Option.none := by
    intro svc q c hc
    have hs : sortedOffers c = [] := by rw [sortedOffers, hc]; rfl
    rw [analyze, hs]
  refine ⟨?_, hempty, by decide, rfl, fun svc q => hempty svc q emptyOffersCluster rfl⟩
  intro svc q c hc
  cases hs : sortedOffers c with
  | nil =>
    exfalso
    apply hc
    have hlen := sortedOffers_length c
    rw [hs] at hlen
    exact List.length_eq_zero.mp hlen.symm
  | cons lowest rest =>
    rw [analyze, hs]
    exact ⟨_, rfl⟩

/-- Witness for C10: the three-offer cluster succeeds; the valid cluster
with `offer_count = 2` but no members fails. -/
theorem c10_analyze_totality_witness :
    (∃ f, analyze { llm := Option.none } (str "q") exampleCluster3 = some f)
    ∧ analyze { llm := Option.none } (str "q") emptyOffersCluster = Option.none := by
  exact ⟨c10_analyze_totality.1 { llm := Option.none } (str "q") exampleCluster3 (by decide),
    c10_analyze_totality.2.1 { llm := Option.none } (str "q") emptyOffersCluster rfl⟩

theorem seller_or_domain_update (o : PurchaseOption) (conf : ℚ) :
    seller_or_domain { o with match_confidence := conf } = seller_or_domain o := rfl

theorem exact_cluster_spec (offers : List PurchaseOption) (cl : ComparisonCluster)
    (h : exact_cluster offers = some cl) :
    cl.offer_count = cl.offers.length ∧ 2 ≤ cl.offers.length
      ∧ 2 ≤ ((cl.offers.map seller_or_domain).dedup).length := by
  rw [exact_cluster] at h
  cases hv : sortBy groupSortLt (viableGroups offers) with
  | nil => rw [hv] at h; exact absurd h (by simp)
  | cons selected restGroups =>
    rw [hv] at h
    simp only [] at h
    rw [Option.some.injEq] at h
    subst h
    have hsel : selected ∈ viableGroups offers := by
      rw [← mem_sortBy groupSortLt, hv]
      exact List.mem_cons_self _ _
    rw [viableGroups] at hsel
    obtain ⟨-, hpred⟩ := List.mem_filter.mp hsel
    rw [Bool.and_eq_true, decide_eq_true_eq, decide_eq_true_eq] at hpred
    obtain ⟨hlen, hdistinct⟩ := hpred
    have hmap : (selected.map (fun offer =>
        { offer with match_confidence := round2 (pymax (mkRat 85 100) (pymin (mkRat 99 100)
          (qadd (qsub (if classify_exact_match_method (dominant_value
            (selected.map PurchaseOption.model)) = MatchMethod.exact_model then mkRat 96 100
            else mkRat 93 100) (mkRat 5 100))
          (qmul (qdiv (sumScores selected) (mkRat (max selected.length 1 : Nat) 1))
            (mkRat 5 100))))) })).map seller_or_domain
        = selected.map seller_or_domain := by
      rw [List.map_map]
      rfl
    refine ⟨rfl, ?_, ?_⟩
    · simpa using hlen
    · simpa [hmap] using hdistinct

theorem match_offers_lt2 (svc : ProductMatcherService) (q : Str)
    (offers : List PurchaseOption) (h : offers.length < 2) :
    match_offers svc q offers = (Option.none, offers,
      [str "At least two relevant purchase options are required for exact-match comparison."]) := by
  rw [match_offers, if_pos h]

theorem map_sod_update (l : List PurchaseOption) (conf : ℚ) :
    (l.map (fun o => { o with match_confidence := conf })).map seller_or_domain
      = l.map seller_or_domain := by
  rw [List.map_map]; rfl

/-- C3 (amended): every cluster the matcher accepts, exact or fuzzy, has
`offer_count` equal to its member count, at least 2 members, and members
spanning at least 2 distinct normalized seller-or-domain values (the seller
name when non-empty, else the source domain) — not necessarily 2 distinct
source domains. -/
theorem c3_cluster_invariants (svc : ProductMatcherService) (q : Str)
    (offers : List PurchaseOption) (cl : ComparisonCluster)
    (matched : List PurchaseOption) (warnings : List Str)
    (h : match_offers svc q offers = (some cl, matched, warnings)) :
    cl.offer_count = cl.offers.length ∧ 2 ≤ cl.offers.length
      ∧ 2 ≤ ((cl.offers.map seller_or_domain).dedup).length := by
  rw [match_offers] at h
  split at h
  · simp at h
  · simp only [] at h
    cases hex : exact_cluster (offers.map enrich_offer) with
    | some cluster =>
      rw [hex] at h
      simp only [Prod.mk.injEq, Option.some.injEq] at h
      obtain ⟨hcl, -, -⟩ := h
      subst hcl
      exact exact_cluster_spec _ _ hex
    | none =>
      rw [hex] at h
      simp only [] at h
      cases hllm : svc.llm with
      | none => rw [hllm] at h; simp at h
      | some llm =>
        rw [hllm] at h
        simp only [] at h
        split at h
        · simp at h
        · cases hfz : llm.match_same_product q ((offers.map enrich_offer).take 6) with
          | none => rw [hfz] at h; simp at h
          | some fuzzy =>
            rw [hfz] at h
            simp only [] at h
            split at h
            · simp at h
            · split at h
              · simp at h
              · split at h
                · simp at h
                · rename_i hlen2 hchecks hsellers
                  simp only [Prod.mk.injEq, Option.some.injEq] at h
                  obtain ⟨hcl, -, -⟩ := h
                  subst hcl
                  refine ⟨rfl, ?_, ?_⟩
                  · simp only [List.length_map]
                    omega
                  · rw [map_sod_update]
                    rw [distinctCount] at hsellers
                    omega

/-- Two offers sharing one source domain but carrying distinct seller
names (brand/model/variant identical, so the exact phase groups them). -/
def offerSellerA : PurchaseOption :=
  { offer_id := str "a1", seller_name := str "Alice Shop", source_domain := str "shop.com",
    title := str "t", brand := str "Sony", model := str "WH-1000XM5", variant := str "32gb",
    price := mkRat 10 1, url := str "https://shop.com/a", condition := Condition.new }

def offerSellerB : PurchaseOption :=
  { offer_id := str "b1", seller_name := str "Bob Shop", source_domain := str "shop.com",
    title := str "t", brand := str "Sony", model := str "WH-1000XM5", variant := str "32gb",
    price := mkRat 12 1, url := str "https://shop.com/b", condition := Condition.new }

/-- Counterexample for C3 as stated: the matcher accepts a two-offer
cluster whose members span only ONE distinct source domain (the viability
check counts distinct seller-or-domain values, and the two seller names
differ while the domain is the same). -/
theorem c3_counterexample :
    ((match_offers { llm := Option.none } (str "q") [offerSellerA, offerSellerB]).1.map
      (fun cl => (cl.offer_count,
        ((cl.offers.map (fun o => o.source_domain)).dedup).length,
        cl.domains.length)))
      = some (2, 1, 1) := by decide

/-- Witness for C3 (amended) on the same concrete matcher run. -/
theorem c3_cluster_invariants_witness :
    ∃ cl l w,
      match_offers { llm := Option.none } (str "q") [offerSellerA, offerSellerB]
        = (some cl, l, w)
      ∧ cl.offer_count = cl.offers.length ∧ 2 ≤ cl.offers.length
      ∧ 2 ≤ ((cl.offers.map seller_or_domain).dedup).length := by
  rcases hm : match_offers { llm := Option.none } (str "q") [offerSellerA, offerSellerB]
    with ⟨a, l, w⟩
  cases a with
  | none =>
    have hne : (match_offers { llm := Option.none } (str "q")
        [offerSellerA, offerSellerB]).1 ≠ Option.none := by decide
    rw [hm] at hne
    exact absurd rfl hne
  | some cl =>
    obtain ⟨h1, h2, h3⟩ := c3_cluster_invariants _ _ _ _ _ _ hm
    exact ⟨cl, l, w, rfl, h1, h2, h3⟩

/-- Two offers with empty brands (inferable from their titles) and distinct
models, so the exact phase fails and enrichment visibly changes the list. -/
def offerEnrichA : PurchaseOption :=
  { offer_id := str "ea", seller_name := str "A", source_domain := str "a.com",
    title := str "sony widget", brand := [], model := str "A1", variant := str "32gb",
    price := mkRat 10 1, url := str "https://a.com/x", condition := Condition.new }

def offerEnrichB : PurchaseOption :=
  { offer_id := str "eb", seller_name := str "B", source_domain := str "b.com",
    title := str "bose widget", brand := [], model := str "B2", variant := str "32gb",
    price := mkRat 12 1, url := str "https://b.com/x", condition := Condition.new }

/-- Counterexample for C6 as stated: when neither phase produces a cluster,
the matcher returns the ENRICHED offer list, which differs from the input
list whenever enrichment inferred a missing field (here the brands). -/
theorem c6_counterexample :
    (match_offers { llm := Option.none } (str "q") [offerEnrichA, offerEnrichB]).1 = Option.none
    ∧ (match_offers { llm := Option.none } (str "q")
        [offerEnrichA, offerEnrichB]).2.1 ≠ [offerEnrichA, offerEnrichB] := by
  exact ⟨by decide, by decide⟩

theorem match_offers_none_spec (svc : ProductMatcherService) (q : Str)
    (offers : List PurchaseOption) (a : Option ComparisonCluster)
    (l : List PurchaseOption) (w : List Str)
    (h : match_offers svc q offers = (a, l, w)) (ha : a = Option.none) :
    l = (if offers.length < 2 then offers else offers.map enrich_offer) := by
  subst ha
  rw [match_offers] at h
  split at h
  · rename_i hlen
    rw [Prod.mk.injEq, Prod.mk.injEq] at h
    rw [if_pos hlen]
    exact h.2.1.symm
  · rename_i hlen
    rw [if_neg hlen]
    simp only [] at h
    cases hex : exact_cluster (offers.map enrich_offer) with
    | some cluster => rw [hex] at h; simp at h
    | none =>
      rw [hex] at h
      simp only [] at h
      cases hllm : svc.llm with
      | none =>
        rw [hllm] at h
        rw [Prod.mk.injEq, Prod.mk.injEq] at h
        exact h.2.1.symm
      | some llm =>
        rw [hllm] at h
        simp only [] at h
        split at h
        · rw [Prod.mk.injEq, Prod.mk.injEq] at h
          exact h.2.1.symm
        · cases hfz : llm.match_same_product q ((offers.map enrich_offer).take 6) with
          | none =>
            rw [hfz] at h
            rw [Prod.mk.injEq, Prod.mk.injEq] at h
            exact h.2.1.symm
          | some fuzzy =>
            rw [hfz] at h
            simp only [] at h
            split at h
            · rw [Prod.mk.injEq, Prod.mk.injEq] at h
              exact h.2.1.symm
            · split at h
              · rw [Prod.mk.injEq, Prod.mk.injEq] at h
                exact h.2.1.symm
              · split at h
                · rw [Prod.mk.injEq, Prod.mk.injEq] at h
                  exact h.2.1.symm
                · simp at h

/-- C6 (amended): with fewer than two input offers the matcher returns a
null cluster, the input list unchanged, and the requires-two warning; and
whenever neither the exact phase nor the fuzzy phase produces a cluster it
returns a null cluster together with the input offers enriched in place
(brand/model/variant inferred where missing) — equal to the input list
exactly when enrichment changes nothing — as a normal return value, not an
exception. -/
theorem c6_no_match_result (svc : ProductMatcherService) (q : Str)
    (offers : List PurchaseOption) :
    (offers.length < 2 → match_offers svc q offers = (Option.none, offers,
      [str "At least two relevant purchase options are required for exact-match comparison."]))
    ∧ ((match_offers svc q offers).1 = Option.none →
        (match_offers svc q offers).2.1
          = (if offers.length < 2 then offers else offers.map enrich_offer)) := by
  refine ⟨match_offers_lt2 svc q offers, ?_⟩
  intro h1
  exact match_offers_none_spec svc q offers _ _ _ rfl h1

/-- Witness for C6 (amended): the single-offer run returns the input list
with the warning, and the two-offer no-match run returns the enriched
list. -/
theorem c6_no_match_result_witness :
    match_offers { llm := Option.none } (str "q") [offerEnrichA]
      = (Option.none, [offerEnrichA],
        [str "At least two relevant purchase options are required for exact-match comparison."])
    ∧ (match_offers { llm := Option.none } (str "q") [offerEnrichA, offerEnrichB]).2.1
      = (if ([offerEnrichA, offerEnrichB] : List PurchaseOption).length < 2 then
          [offerEnrichA, offerEnrichB]
        else [offerEnrichA, offerEnrichB].map enrich_offer) := by
  exact ⟨(c6_no_match_result { llm := Option.none } (str "q") [offerEnrichA]).1 (by decide),
    (c6_no_match_result { llm := Option.none } (str "q") [offerEnrichA, offerEnrichB]).2 (by decide)⟩

theorem strLt_asymm : ∀ (a b : Str), strLt a b = true → strLt b a = false := by
  intro a
  induction a with
  | nil =>
    intro b h
    cases b with
    | nil => simp [strLt] at h
    | cons d ds => rfl
  | cons c cs ih =>
    intro b h
    cases b with
    | nil => simp [strLt] at h
    | cons d ds =>
      rw [strLt] at h ⊢
      by_cases h1 : c.toNat < d.toNat
      · rw [if_neg (by omega : ¬ d.toNat < c.toNat), if_pos h1]
      · by_cases h2 : d.toNat < c.toNat
        · rw [if_neg h1, if_pos h2] at h
          exact absurd h (by simp)
        · rw [if_neg h1, if_neg h2] at h
          rw [if_neg h2, if_neg h1]
          exact ih ds h

theorem strLt_negtrans :
    ∀ (a b c : Str), strLt b a = false → strLt c b = false → strLt c a = false := by
  intro a
  induction a with
  | nil =>
    intro b c h1 h2
    cases c with
    | nil => rfl
    | cons z zs => rfl
  | cons x xs ih =>
    intro b c h1 h2
    cases b with
    | nil => simp [strLt] at h1
    | cons y ys =>
      cases c with
      | nil => simp [strLt] at h2
      | cons z zs =>
        rw [strLt] at h1 h2 ⊢
        by_cases hyx : y.toNat < x.toNat
        · rw [if_pos hyx] at h1; exact absurd h1 (by simp)
        · by_cases hzy : z.toNat < y.toNat
          · rw [if_pos hzy] at h2; exact absurd h2 (by simp)
          · rw [if_neg (by omega : ¬ z.toNat < x.toNat)]
            by_cases hxz : x.toNat < z.toNat
            · rw [if_pos hxz]
            · rw [if_neg hxz]
              rw [if_neg hyx, if_neg (by omega : ¬ x.toNat < y.toNat)] at h1
              rw [if_neg hzy, if_neg (by omega : ¬ y.toNat < z.toNat)] at h2
              exact ih ys zs h1 h2

theorem rankSortLt_asymm (a b : PurchaseOption) :
    rankSortLt a b = true → rankSortLt b a = false := by
  rw [rankSortLt, rankSortLt]
  by_cases h1 : b.relevance_score < a.relevance_score
  · intro _
    rw [if_neg (lt_asymm h1), if_pos h1]
  · rw [if_neg h1]
    by_cases h2 : a.relevance_score < b.relevance_score
    · rw [if_pos h2]
      intro h; exact absurd h (by simp)
    · rw [if_neg h2, if_neg h2, if_neg h1]
      by_cases h3 : a.price < b.price
      · intro _
        rw [if_neg (lt_asymm h3), if_pos h3]
      · rw [if_neg h3]
        by_cases h4 : b.price < a.price
        · rw [if_pos h4]
          intro h; exact absurd h (by simp)
        · rw [if_neg h4, if_neg h4, if_neg h3]
          exact strLt_asymm _ _

theorem rankSortLt_negtrans (a b c : PurchaseOption) :
    rankSortLt b a = false → rankSortLt c b = false → rankSortLt c a = false := by
  intro h1 h2
  rw [rankSortLt] at h1 h2 ⊢
  by_cases h_ab : a.relevance_score < b.relevance_score
  · rw [if_pos h_ab] at h1; exact absurd h1 (by simp)
  by_cases h_bc : b.relevance_score < c.relevance_score
  · rw [if_pos h_bc] at h2; exact absurd h2 (by simp)
  rw [if_neg (show ¬ a.relevance_score < c.relevance_score from
    not_lt.mpr ((not_lt.mp h_bc).trans (not_lt.mp h_ab)))]
  by_cases h_ca : c.relevance_score < a.relevance_score
  · rw [if_pos h_ca]
  rw [if_neg h_ca]
  have hsba : ¬ b.relevance_score < a.relevance_score := by
    have e1 := not_lt.mp h_ab
    have e2 := not_lt.mp h_bc
    have e3 := not_lt.mp h_ca
    exact not_lt.mpr (by linarith)
  have hscb : ¬ c.relevance_score < b.relevance_score := by
    have e1 := not_lt.mp h_ab
    have e2 := not_lt.mp h_bc
    have e3 := not_lt.mp h_ca
    exact not_lt.mpr (by linarith)
  rw [if_neg h_ab, if_neg hsba] at h1
  rw [if_neg h_bc, if_neg hscb] at h2
  by_cases hpba : b.price < a.price
  · rw [if_pos hpba] at h1; exact absurd h1 (by simp)
  by_cases hpcb : c.price < b.price
  · rw [if_pos hpcb] at h2; exact absurd h2 (by simp)
  rw [if_neg (show ¬ c.price < a.price from
    not_lt.mpr ((not_lt.mp hpba).trans (not_lt.mp hpcb)))]
  by_cases hpac : a.price < c.price
  · rw [if_pos hpac]
  rw [if_neg hpac]
  have hqab : ¬ a.price < b.price := by
    have e1 := not_lt.mp hpba
    have e2 := not_lt.mp hpcb
    have e3 := not_lt.mp hpac
    exact not_lt.mpr (by linarith)
  have hqbc : ¬ b.price < c.price := by
    have e1 := not_lt.mp hpba
    have e2 := not_lt.mp hpcb
    have e3 := not_lt.mp hpac
    exact not_lt.mpr (by linarith)
  rw [if_neg hpba, if_neg hqab] at h1
  rw [if_neg hpcb, if_neg hqbc] at h2
  exact strLt_negtrans a.source_domain b.source_domain c.source_domain h1 h2

/-- C7: the ranker's rejection chain runs before scoring in
first-match-wins order (used-family condition, then non-positive price,
then a search-or-review marker in title/URL/promo, then an accessory
keyword missing from the query); a used/refurbished/open-box offer is
annotated with its condition as the reason, scored 0, and excluded from
the output; the output is exactly the annotated offers scoring at least
0.55, sorted by (score descending, price ascending, domain ascending). -/
theorem c7_ranker_contract :
    (∀ (q : Str) (o : PurchaseOption), usedCondition o.condition = true →
       reject_reason q o = some o.condition.toStr)
    ∧ (∀ (q : Str) (o : PurchaseOption), usedCondition o.condition = false → o.price ≤ 0 →
       reject_reason q o = some (str "missing-price"))
    ∧ (∀ (q : Str) (o : PurchaseOption), usedCondition o.condition = false → 0 < o.price →
       SEARCH_OR_REVIEW_TOKENS.any (fun token => containsSub token
         (lowerStr (o.title ++ str " " ++ o.url ++ str " " ++ o.promo_text))) = true →
       reject_reason q o = some (str "search-or-review-page"))
    ∧ (∀ (q : Str) (o : PurchaseOption), usedCondition o.condition = false → 0 < o.price →
       SEARCH_OR_REVIEW_TOKENS.any (fun token => containsSub token
         (lowerStr (o.title ++ str " " ++ o.url ++ str " " ++ o.promo_text))) = false →
       looks_like_accessory q o = true →
       reject_reason q o = some (str "accessory"))
    ∧ (∀ (q : Str) (o : PurchaseOption) (offers : List PurchaseOption),
       usedCondition o.condition = true →
       (rankAnnotate q o).relevance_score = 0
       ∧ (rankAnnotate q o).parse_notes = o.parse_notes ++ [str "rejected:" ++ o.condition.toStr]
       ∧ rankAnnotate q o ∉ rank q offers)
    ∧ (∀ (q : Str) (offers : List PurchaseOption) (x : PurchaseOption),
       x ∈ rank q offers ↔
         (x ∈ offers.map (rankAnnotate q) ∧ mkRat 55 100 ≤ x.relevance_score))
    ∧ (∀ (q : Str) (offers : List PurchaseOption),
       List.Perm (rank q offers)
         ((offers.map (rankAnnotate q)).filter
           (fun offer => mkRat 55 100 ≤ offer.relevance_score)))
    ∧ (∀ (q : Str) (offers : List PurchaseOption),
       List.Pairwise (fun x y => rankSortLt y x = false) (rank q offers)) := by
  have hused : ∀ (q : Str) (o : PurchaseOption), usedCondition o.condition = true →
      reject_reason q o = some o.condition.toStr := by
    intro q o h
    rw [reject_reason, if_pos h]
  have hmem : ∀ (q : Str) (offers : List PurchaseOption) (x : PurchaseOption),
      x ∈ rank q offers ↔
        (x ∈ offers.map (rankAnnotate q) ∧ mkRat 55 100 ≤ x.relevance_score) := by
    intro q offers x
    rw [rank]
    rw [mem_sortBy]
    rw [List.mem_filter]
    constructor
    · rintro ⟨h1, h2⟩
      exact ⟨h1, of_decide_eq_true h2⟩
    · rintro ⟨h1, h2⟩
      exact ⟨h1, decide_eq_true h2⟩
  refine ⟨hused, ?_, ?_, ?_, ?_, hmem, ?_, ?_⟩
  · intro q o h hp
    rw [reject_reason, if_neg (by rw [h]; exact Bool.false_ne_true), if_pos hp]
  · intro q o h hp hany
    rw [reject_reason, if_neg (by rw [h]; exact Bool.false_ne_true),
      if_neg (not_le.mpr hp)]
    simp only []
    rw [if_pos hany]
  · intro q o h hp hany hacc
    rw [reject_reason, if_neg (by rw [h]; exact Bool.false_ne_true),
      if_neg (not_le.mpr hp)]
    simp only []
    rw [if_neg (by rw [hany]; exact Bool.false_ne_true), if_pos hacc]
  · intro q o offers h
    have hannot : rankAnnotate q o =
        { o with parse_notes := o.parse_notes ++ [str "rejected:" ++ o.condition.toStr]
                 relevance_score := 0 } := by
      rw [rankAnnotate, hused q o h]
    refine ⟨by rw [hannot], by rw [hannot], ?_⟩
    intro hininrank
    have h55 := ((hmem q offers (rankAnnotate q o)).mp hininrank).2
    rw [hannot] at h55
    exact absurd (show mkRat 55 100 ≤ (0 : ℚ) from h55) (by decide)
  · intro q offers
    rw [rank]
    exact perm_sortBy _ _
  · intro q offers
    rw [rank]
    exact pairwise_sortBy rankSortLt rankSortLt_asymm rankSortLt_negtrans _

def wUsed : PurchaseOption :=
  { offer_id := str "wu", seller_name := str "S", source_domain := str "s.com",
    title := str "thing", price := mkRat 5 1, url := str "https://s.com/p",
    condition := Condition.used }

def wNoPrice : PurchaseOption :=
  { offer_id := str "wn", seller_name := str "S", source_domain := str "s.com",
    title := str "thing", price := mkRat 0 1, url := str "https://s.com/p",
    condition := Condition.new }

def wReview : PurchaseOption :=
  { offer_id := str "wr", seller_name := str "S", source_domain := str "s.com",
    title := str "thing", price := mkRat 5 1, url := str "https://s.com/review/p",
    condition := Condition.new }

def wAccessory : PurchaseOption :=
  { offer_id := str "wa", seller_name := str "S", source_domain := str "s.com",
    title := str "case thing", price := mkRat 5 1, url := str "https://s.com/p",
    condition := Condition.new }

/-- Witness for C7 on concrete offers exercising every rejection branch
and the output contract. -/
theorem c7_ranker_contract_witness :
    reject_reason (str "q") wUsed = some wUsed.condition.toStr
    ∧ reject_reason (str "q") wNoPrice = some (str "missing-price")
    ∧ reject_reason (str "q") wReview = some (str "search-or-review-page")
    ∧ reject_reason (str "q") wAccessory = some (str "accessory")
    ∧ ((rankAnnotate (str "q") wUsed).relevance_score = 0
       ∧ (rankAnnotate (str "q") wUsed).parse_notes
           = wUsed.parse_notes ++ [str "rejected:" ++ wUsed.condition.toStr]
       ∧ rankAnnotate (str "q") wUsed ∉ rank (str "q") [wUsed, wReview])
    ∧ (wUsed ∈ rank (str "q") [wUsed] ↔
        (wUsed ∈ [wUsed].map (rankAnnotate (str "q"))
          ∧ mkRat 55 100 ≤ wUsed.relevance_score))
    ∧ List.Perm (rank (str "q") [wUsed])
        (([wUsed].map (rankAnnotate (str "q"))).filter
          (fun offer => mkRat 55 100 ≤ offer.relevance_score))
    ∧ List.Pairwise (fun x y => rankSortLt y x = false) (rank (str "q") [wUsed]) :=
  ⟨c7_ranker_contract.1 (str "q") wUsed (by decide),
   c7_ranker_contract.2.1 (str "q") wNoPrice (by decide) (by decide),
   c7_ranker_contract.2.2.1 (str "q") wReview (by decide) (by decide) (by decide),
   c7_ranker_contract.2.2.2.1 (str "q") wAccessory (by decide) (by decide) (by decide) (by decide),
   c7_ranker_contract.2.2.2.2.1 (str "q") wUsed [wUsed, wReview] (by decide),
   c7_ranker_contract.2.2.2.2.2.1 (str "q") [wUsed] wUsed,
   c7_ranker_contract.2.2.2.2.2.2.1 (str "q") [wUsed],
   c7_ranker_contract.2.2.2.2.2.2.2 (str "q") [wUsed]⟩

theorem pydanticValid_price_pos (o : PurchaseOption)
    (h : o.pydanticValid = true) : 0 < o.price := by
  unfold PurchaseOption.pydanticValid at h
  simp only [Bool.and_eq_true, decide_eq_true_eq] at h
  exact h.1.1.1.1

theorem if_valid_ok (x o : PurchaseOption)
    (h : (if x.pydanticValid = true
          then (Except.ok (some x) : Except Unit (Option PurchaseOption))
          else Except.error ()) = Except.ok (some o)) :
    o.pydanticValid = true := by
  by_cases hb : x.pydanticValid = true
  · rw [if_pos hb] at h
    obtain rfl := Option.some.inj (Except.ok.inj h)
    exact hb
  · rw [if_neg hb] at h
    exact Except.noConfusion h

theorem preview_ok_some_valid (svc : ProductExtractorService)
    (c : DiscoveryCandidate) (fu : Option Str) (t b m v : Str)
    (o : PurchaseOption)
    (h : offer_from_candidate_preview svc c fu t b m v = Except.ok (some o)) :
    o.pydanticValid = true := by
  unfold offer_from_candidate_preview at h
  cases hp : c.preview_price with
  | none =>
    rw [hp] at h
    simp only [Except.ok.injEq] at h
    exact Option.noConfusion h
  | some p =>
    rw [hp] at h
    simp only [] at h
    exact if_valid_ok _ o h

theorem preview_none_of_no_preview_price (svc : ProductExtractorService)
    (c : DiscoveryCandidate) (fu : Option Str) (t b m v : Str)
    (hp : c.preview_price = Option.none) :
    offer_from_candidate_preview svc c fu t b m v = Except.ok Option.none := by
  unfold offer_from_candidate_preview
  rw [hp]

theorem extract_one_ok_some_valid (svc : ProductExtractorService)
    (c : DiscoveryCandidate) (o : PurchaseOption)
    (h : extract_one svc c = Except.ok (some o)) :
    o.pydanticValid = true := by
  unfold extract_one at h
  cases hf : svc.fetch c with
  | none =>
    rw [hf] at h
    simp only [] at h
    exact preview_ok_some_valid _ _ _ _ _ _ _ _ h
  | some page =>
    rw [hf] at h
    simp only [] at h
    cases hpr : extract_price (extract_product_jsonld page.jsonldPayloads)
        page.metaTags page with
    | none =>
      rw [hpr] at h
      simp only [] at h
      exact preview_ok_some_valid _ _ _ _ _ _ _ _ h
    | some price =>
      rw [hpr] at h
      simp only [] at h
      exact if_valid_ok _ o h

theorem extractFoldl_price_pos (svc : ProductExtractorService)
    (sel : List DiscoveryCandidate) :
    ∀ acc : List PurchaseOption × List Str, (∀ o ∈ acc.1, 0 < o.price) →
      ∀ o ∈ (sel.foldl (extractStep svc) acc).1, 0 < o.price := by
  induction sel with
  | nil => intro acc hacc; exact hacc
  | cons c rest ih =>
    intro acc hacc
    simp only [List.foldl_cons]
    refine ih _ ?_
    intro o ho
    unfold extractStep at ho
    cases hx : extract_one svc c with
    | error e => rw [hx] at ho; simp only [] at ho; exact hacc o ho
    | ok res =>
      cases res with
      | none => rw [hx] at ho; simp only [] at ho; exact hacc o ho
      | some offer =>
        rw [hx] at ho
        simp only [] at ho
        rcases List.mem_append.mp ho with hin | hin
        · exact hacc o hin
        · rcases List.mem_singleton.mp hin with rfl
          exact pydanticValid_price_pos o (extract_one_ok_some_valid svc c o hx)

theorem extractFoldl_warn_mono (svc : ProductExtractorService)
    (sel : List DiscoveryCandidate) (w : Str) :
    ∀ acc : List PurchaseOption × List Str, w ∈ acc.2 →
      w ∈ (sel.foldl (extractStep svc) acc).2 := by
  induction sel with
  | nil => intro acc hw; exact hw
  | cons c rest ih =>
    intro acc hw
    simp only [List.foldl_cons]
    refine ih _ ?_
    unfold extractStep
    cases hx : extract_one svc c with
    | error e => exact List.mem_append_left _ hw
    | ok res =>
      cases res with
      | none => exact List.mem_append_left _ hw
      | some offer => exact hw

theorem extractFoldl_warn_mem (svc : ProductExtractorService)
    (sel : List DiscoveryCandidate) (c : DiscoveryCandidate)
    (hone : extract_one svc c = Except.ok Option.none) :
    ∀ acc : List PurchaseOption × List Str, c ∈ sel →
      (str "Could not parse a priced product page for " ++ c.domain ++ str ".")
        ∈ (sel.foldl (extractStep svc) acc).2 := by
  induction sel with
  | nil => intro acc hc; cases hc
  | cons d rest ih =>
    intro acc hc
    simp only [List.foldl_cons]
    rcases List.mem_cons.mp hc with rfl | hcr
    · apply extractFoldl_warn_mono
      unfold extractStep
      rw [hone]
      exact List.mem_append_right _ (List.mem_singleton.mpr rfl)
    · exact ih _ hcr

/-- C8: the extractor never emits a non-positive price.  Every offer in
the output of `extract_many` has a positive price (the pydantic `gt=0`
constraint on `price` turns any non-positive parse into a raised
`ValidationError`, caught as a warning by `extract_many`); a candidate
whose fetched page yields no resolvable price (or whose fetch fails
entirely) and which carries no preview price makes `extract_one` return no
offer at all, and for every selected candidate on which `extract_one`
returns no offer the "Could not parse a priced product page" warning is
recorded. -/
theorem c8_extractor_price_positive :
    (∀ (svc : ProductExtractorService) (cands : List DiscoveryCandidate)
       (o : PurchaseOption), o ∈ (extract_many svc cands).1 → 0 < o.price)
    ∧ (∀ (svc : ProductExtractorService) (c : DiscoveryCandidate),
        c.preview_price = Option.none →
        (svc.fetch c = Option.none
         ∨ ∃ page, svc.fetch c = some page
             ∧ extract_price (extract_product_jsonld page.jsonldPayloads)
                 page.metaTags page = Option.none) →
        extract_one svc c = Except.ok Option.none)
    ∧ (∀ (svc : ProductExtractorService) (cands : List DiscoveryCandidate)
         (c : DiscoveryCandidate), c ∈ select_candidates svc cands →
        extract_one svc c = Except.ok Option.none →
        (str "Could not parse a priced product page for " ++ c.domain ++ str ".")
          ∈ (extract_many svc cands).2) := by
  refine ⟨?_, ?_, ?_⟩
  · intro svc cands o ho
    unfold extract_many at ho
    simp only [] at ho
    split at ho
    · cases ho
    · simp only [] at ho
      exact extractFoldl_price_pos svc _ _ (by intro o h; cases h) o
        ((mem_sortBy _ _ _).mp ho)
  · intro svc c hp hcase
    rcases hcase with hf | ⟨page, hf, hpr⟩
    · unfold extract_one
      rw [hf]
      exact preview_none_of_no_preview_price svc c _ _ _ _ _ hp
    · unfold extract_one
      rw [hf]
      simp only []
      rw [hpr]
      exact preview_none_of_no_preview_price svc c _ _ _ _ _ hp
  · intro svc cands c hc hone
    unfold extract_many
    simp only []
    split
    · next hemp =>
      rw [List.isEmpty_iff.mp hemp] at hc
      cases hc
    · exact extractFoldl_warn_mem svc _ c hone _ hc

def wx8Svc : ProductExtractorService :=
  { fetch := fun _ => Option.none, offerIdOf := fun _ => str "id" }

def wx8Good : DiscoveryCandidate :=
  { domain := str "a.com", title := str "x", url := str "https://a.com/p",
    preview_price := some (mkRat 5 1) }

def wx8None : DiscoveryCandidate :=
  { domain := str "b.com", title := str "x", url := str "https://b.com/p" }

def wx8Offer : PurchaseOption :=
  { offer_id := str "id", seller_name := str "A", source_domain := str "a.com",
    title := str "x", brand := str "X", price := mkRat 5 1,
    url := str "https://a.com/p",
    parse_notes := [str "tavily", str "preview-price"] }

/-- Witness for C8: a concrete two-candidate run in which the preview-priced
candidate yields a positive-price offer and the price-less candidate yields
no offer plus the recorded warning. -/
theorem c8_extractor_price_positive_witness :
    (0 < wx8Offer.price)
    ∧ extract_one wx8Svc wx8None = Except.ok Option.none
    ∧ (str "Could not parse a priced product page for " ++ wx8None.domain ++ str ".")
        ∈ (extract_many wx8Svc [wx8Good, wx8None]).2 :=
  ⟨c8_extractor_price_positive.1 wx8Svc [wx8Good, wx8None] wx8Offer (by decide),
   c8_extractor_price_positive.2.1 wx8Svc wx8None (by decide) (Or.inl rfl),
   c8_extractor_price_positive.2.2 wx8Svc [wx8Good, wx8None] wx8None (by decide) rfl⟩

theorem containsSub_append_right (n t u : Str) (h : containsSub n t = true) :
    containsSub n (t ++ u) = true := by
  simp only [containsSub, decide_eq_true_eq] at h ⊢
  rcases h with ⟨a, b, rfl⟩
  exact ⟨a, b ++ u, by simp⟩

theorem reject_of_marker (c : DiscoveryCandidate)
    (h : containsSub (str "/search") (lowerStr (urlPath c.url)) = true
       ∨ containsSub (str "review") (lowerStr c.title) = true) :
    reject_candidate c = true := by
  unfold reject_candidate
  simp only [Bool.or_eq_true, List.any_eq_true]
  rcases h with h | h
  · exact Or.inl (Or.inl (Or.inr ⟨str "/search", by decide, Or.inl h⟩))
  · refine Or.inl (Or.inl (Or.inl (Or.inr ⟨str "review", by decide, ?_⟩)))
    simp only [lowerStr, List.map_append] at h ⊢
    exact containsSub_append_right _ _ _ (containsSub_append_right _ _ _
      (containsSub_append_right _ _ _ (containsSub_append_right _ _ _ h)))

theorem mem_dedupeFoldl (P : DiscoveryCandidate → Prop) :
    ∀ (l : List DiscoveryCandidate) (acc : List (Str × DiscoveryCandidate)),
      (∀ kv ∈ acc, P kv.2) → (∀ c ∈ l, P c) →
      ∀ kv ∈ l.foldl dedupeStep acc, P kv.2 := by
  intro l
  induction l with
  | nil => intro acc hacc _ kv hkv; exact hacc kv hkv
  | cons c rest ih =>
    intro acc hacc hl
    simp only [List.foldl_cons]
    refine ih _ ?_ (fun d hd => hl d (List.mem_cons_of_mem _ hd))
    intro kv hkv
    unfold dedupeStep at hkv
    split at hkv
    · rcases List.mem_map.mp hkv with ⟨kv0, hkv0, rfl⟩
      split
      · exact hl c (List.mem_cons_self _ _)
      · exact hacc kv0 hkv0
    · rcases List.mem_append.mp hkv with hin | hin
      · exact hacc kv hin
      · rcases List.mem_singleton.mp hin with rfl
        exact hl c (List.mem_cons_self _ _)

theorem mem_dedupe (l : List DiscoveryCandidate) (x : DiscoveryCandidate)
    (hx : x ∈ dedupe_candidates l) : x ∈ l := by
  unfold dedupe_candidates at hx
  rcases List.mem_map.mp hx with ⟨kv, hkv, rfl⟩
  exact mem_dedupeFoldl (fun c => c ∈ l) l [] (by intro kv h; cases h)
    (fun c h => h) kv hkv

theorem qualifyStep_sub (qt : List Str) (acc : List DiscoveryCandidate)
    (c : DiscoveryCandidate) :
    qualifyStep qt acc c = acc
    ∨ (reject_candidate c = false
       ∧ ∃ s, qualifyStep qt acc c = acc ++ [{ c with score := s }]) := by
  have hf : reject_candidate c = true ∨ reject_candidate c = false := by
    cases reject_candidate c
    · exact Or.inr rfl
    · exact Or.inl rfl
  unfold qualifyStep
  rcases hf with hr | hr
  · rw [if_pos hr]
    exact Or.inl rfl
  · rw [if_neg (by simp [hr])]
    simp only []
    by_cases hA : (!has_product_hint c) = true ∧
        token_overlap qt (c.title ++ str " " ++ c.snippet ++ str " " ++ c.url)
          < (if SEARCH_URL_DOMAINS.contains (root_domain c.domain) = true
             then mkRat 35 100 else mkRat 5 10)
    · rw [if_pos hA]
      exact Or.inl rfl
    · rw [if_neg hA]
      by_cases hB : (!has_commerce_hint c) = true ∧
          token_overlap qt (c.title ++ str " " ++ c.snippet ++ str " " ++ c.url)
            < (if (has_product_hint c || SEARCH_URL_DOMAINS.contains (root_domain c.domain)) = true
               then mkRat 4 10 else mkRat 65 100)
      · rw [if_pos hB]
        exact Or.inl rfl
      · rw [if_neg hB]
        exact Or.inr ⟨hr, _, rfl⟩

theorem mem_qualifyFoldl (qt : List Str) :
    ∀ (l acc : List DiscoveryCandidate),
      (∀ x ∈ acc, ∃ c, reject_candidate c = false ∧ x.url = c.url ∧ x.title = c.title) →
      ∀ x ∈ l.foldl (qualifyStep qt) acc,
        ∃ c, reject_candidate c = false ∧ x.url = c.url ∧ x.title = c.title := by
  intro l
  induction l with
  | nil => intro acc hacc x hx; exact hacc x hx
  | cons c rest ih =>
    intro acc hacc
    simp only [List.foldl_cons]
    refine ih _ ?_
    intro x hx
    rcases qualifyStep_sub qt acc c with he | ⟨hrej, s, he⟩ <;> rw [he] at hx
    · exact hacc x hx
    · rcases List.mem_append.mp hx with hin | hin
      · exact hacc x hin
      · rcases List.mem_singleton.mp hin with rfl
        exact ⟨c, hrej, rfl, rfl⟩

theorem mem_qualify (l : List DiscoveryCandidate) (nq : Str) (x : DiscoveryCandidate)
    (hx : x ∈ qualify_candidates l nq) :
    ∃ c, reject_candidate c = false ∧ x.url = c.url ∧ x.title = c.title := by
  unfold qualify_candidates at hx
  exact mem_qualifyFoldl (tokenizeText nq) l [] (by intro x h; cases h) x hx

/-- C9: discovery excludes search and review pages.  Every candidate in the
qualified, deduplicated, sorted list returned by discovery has a URL whose
lowercased path does not contain the substring representing slash-search and
a lowercased title that does not contain the word review (any such raw hit
is dropped by the qualification filter). -/
theorem c9_discovery_excludes_search_review
    (raw fallback : List DiscoveryCandidate) (nq : Str) (x : DiscoveryCandidate)
    (hx : x ∈ discoverCandidates raw fallback nq) :
    containsSub (str "/search") (lowerStr (urlPath x.url)) = false
    ∧ containsSub (str "review") (lowerStr x.title) = false := by
  unfold discoverCandidates at hx
  have hx3 := mem_dedupe _ _ ((mem_sortBy _ _ _).mp hx)
  have hq : ∃ c, reject_candidate c = false ∧ x.url = c.url ∧ x.title = c.title := by
    rcases List.mem_append.mp hx3 with hq | hq
    · exact mem_qualify _ _ _ hq
    · exact mem_qualify _ _ _ hq
  rcases hq with ⟨c, hrej, hurl, htitle⟩
  constructor
  · cases h1 : containsSub (str "/search") (lowerStr (urlPath x.url)) with
    | false => rfl
    | true =>
      rw [hurl] at h1
      rw [reject_of_marker c (Or.inl h1)] at hrej
      exact Bool.noConfusion hrej
  · cases h2 : containsSub (str "review") (lowerStr x.title) with
    | false => rfl
    | true =>
      rw [htitle] at h2
      rw [reject_of_marker c (Or.inr h2)] at hrej
      exact Bool.noConfusion hrej

def wx9Raw : DiscoveryCandidate :=
  { domain := str "bestbuy.com", title := str "x9",
    url := str "https://www.bestbuy.com/site/x9", snippet := str "buy",
    score := some (mkRat 1 2) }

def wx9Out : DiscoveryCandidate :=
  { domain := str "bestbuy.com", title := str "x9",
    url := str "https://www.bestbuy.com/site/x9", snippet := str "buy",
    score := some 1 }

/-- Witness for C9 on a concrete discovery run that keeps one candidate. -/
theorem c9_discovery_excludes_search_review_witness :
    wx9Out ∈ discoverCandidates [wx9Raw] [] (str "x9")
    ∧ containsSub (str "/search") (lowerStr (urlPath wx9Out.url)) = false
    ∧ containsSub (str "review") (lowerStr wx9Out.title) = false :=
  ⟨by decide,
   (c9_discovery_excludes_search_review [wx9Raw] [] (str "x9") wx9Out (by decide)).1,
   (c9_discovery_excludes_search_review [wx9Raw] [] (str "x9") wx9Out (by decide)).2⟩

def wx4Default : PricingFinding :=
  { label := Label.none, spread_percent := 0, reasoning := [], confidence := 0,
    claim_style_text := [], evidence_notes := [] }

/-- The finding that the LLM-less analyzer produces on the concrete
three-offer example cluster. -/
def wx4F : PricingFinding :=
  (analyze { llm := Option.none } (str "sony wh-1000xm5") exampleCluster3).getD wx4Default

set_option maxRecDepth 4000 in
/-- Witness for C4: the spread formula of the first conjunct instantiated
on the concrete three-offer cluster and its computed finding. -/
theorem c4_spread_example_witness :
    wx4F.spread_percent =
      (if 0 < offerMC.price then
        round2 (qmul (qdiv
          (qsub ((offerMC :: [offerAZ, offerBB]).getLast
            (List.cons_ne_nil offerMC [offerAZ, offerBB])).price offerMC.price)
          offerMC.price) (mkRat 100 1))
       else 0) :=
  c4_spread_example.1 { llm := Option.none } (str "sony wh-1000xm5") exampleCluster3
    wx4F offerMC [offerAZ, offerBB] (by decide) (by decide)
